import Mathlib

/-!
Verification development for the smart-storage-operator data-plane cores.

This file shallowly embeds the multi-tier cache (tier policy, cache keys,
compression manager, LRU tracker, storage backends, multi-tier manager,
prefetcher) and the sharded node registry of the repository, and proves or
refutes the specification claims about them.

Modelling conventions:
  - Rust `u64`/`usize` values are modelled as `Nat`; where wrap-around of a
    `fetch_sub` on an atomic counter is reachable, the wrapping subtraction
    modulo `2^64` is modelled explicitly (`u64wrapSub`).
  - Rust `String` is modelled as `List Char`; `Vec<u8>`/`Bytes` as `List Nat`.
  - Hash maps are modelled as association lists with unique keys; the
    insertion-ordered `IndexMap` of the LRU shard is modelled as a list in
    insertion order (the source always removes before inserting, so insert is
    an append at the back).
  - `f32`/`f64` values are modelled exactly as dyadic rationals given by an
    integer significand and a power-of-two exponent; `f64` arithmetic rounds
    the significand to 53 bits with round-half-to-even, which coincides with
    IEEE-754 binary64 in the normal range covered by every configuration
    (exponent overflow and subnormals are outside the values that occur).
  - Wall-clock timestamps are passed explicitly as integer parameters.
-/

namespace SmartStorage

-- =============================================================================
-- Small utilities: u64 wrapping, association lists
-- =============================================================================

/-- Size of the u64 value space. -/
def U64_MODULUS : Nat := 2 ^ 64

/-- Wrapping subtraction on u64 counters (semantics of `fetch_sub` when the
subtrahend exceeds the current value). Both arguments are assumed `< 2^64`. -/
def u64wrapSub (a b : Nat) : Nat := (a + (U64_MODULUS - b % U64_MODULUS)) % U64_MODULUS

/-- Lookup in an association list (model of `HashMap::get` / `DashMap::get`). -/
def alookup {K V : Type} [DecidableEq K] (k : K) : List (K × V) → Option V
  | [] => Option.none
  | (k1, v) :: rest => if k1 = k then some v else alookup k rest

/-- Insert or replace in an association list (model of `HashMap::insert`). -/
def ainsert {K V : Type} [DecidableEq K] (k : K) (v : V) : List (K × V) → List (K × V)
  | [] => [(k, v)]
  | (k1, v1) :: rest => if k1 = k then (k, v) :: rest else (k1, v1) :: ainsert k v rest

/-- Remove a key from an association list (model of `HashMap::remove`). -/
def aerase {K V : Type} [DecidableEq K] (k : K) : List (K × V) → List (K × V)
  | [] => []
  | (k1, v1) :: rest => if k1 = k then rest else (k1, v1) :: aerase k rest

-- =============================================================================
-- src/cache/tier.rs: tiers, size thresholds, size-based placement
-- =============================================================================

/-- Maximum size for the L1 (memory) tier: 100 MiB. -/
def L1_MAX_SIZE_BYTES : Nat := 100 * 1024 * 1024

/-- Maximum size for the L2 (local SSD) tier: 1 GiB. -/
def L2_MAX_SIZE_BYTES : Nat := 1024 * 1024 * 1024

/-- Objects larger than this bypass the cache entirely: 10 GiB. -/
def CACHE_BYPASS_SIZE_BYTES : Nat := 10 * 1024 * 1024 * 1024

/-- The three cache tiers (`CacheTier` in tier.rs). -/
inductive CacheTier where
  | L1Memory
  | L2Local
  | L3Persistent
deriving DecidableEq, Repr

/-- Size-based tier selection (`CacheTier::for_size`). -/
def CacheTier.for_size (size_bytes : Nat) : Option CacheTier :=
  if size_bytes > CACHE_BYPASS_SIZE_BYTES then Option.none
  else if size_bytes ≤ L1_MAX_SIZE_BYTES then some CacheTier.L1Memory
  else if size_bytes ≤ L2_MAX_SIZE_BYTES then some CacheTier.L2Local
  else some CacheTier.L3Persistent

/-- Maximum object size per tier (`CacheTier::max_object_size`). -/
def CacheTier.max_object_size : CacheTier → Nat
  | CacheTier.L1Memory => L1_MAX_SIZE_BYTES
  | CacheTier.L2Local => L2_MAX_SIZE_BYTES
  | CacheTier.L3Persistent => CACHE_BYPASS_SIZE_BYTES

/-- Demotion target per tier (`CacheTier::demotion_target`). -/
def CacheTier.demotion_target : CacheTier → Option CacheTier
  | CacheTier.L1Memory => some CacheTier.L2Local
  | CacheTier.L2Local => some CacheTier.L3Persistent
  | CacheTier.L3Persistent => Option.none

/-- Promotion target per tier (`CacheTier::promotion_target`). -/
def CacheTier.promotion_target : CacheTier → Option CacheTier
  | CacheTier.L1Memory => Option.none
  | CacheTier.L2Local => some CacheTier.L1Memory
  | CacheTier.L3Persistent => some CacheTier.L2Local

/-- Lookup order over tiers (`CacheTier::lookup_order`). -/
def CacheTier.lookup_order : List CacheTier :=
  [CacheTier.L1Memory, CacheTier.L2Local, CacheTier.L3Persistent]

-- =============================================================================
-- src/cache/entry.rs: cache keys and their textual serialization
-- =============================================================================

/-- Cache key (`CacheKey` in entry.rs). The Rust field `namespace` is renamed
`nspace` because `namespace` is a Lean keyword. -/
structure CacheKey where
  nspace : List Char
  id : List Char
  version : Option Nat
deriving DecidableEq, Repr

/-- Decimal digits of a positive number, most significant first; the fuel
argument bounds the recursion depth and is always instantiated large enough
(`10^fuel > n`). Models the `Display` formatting of a `u64`. -/
def natDecimalAux : Nat → Nat → List Char
  | 0, _ => []
  | fuel+1, n => if n = 0 then [] else natDecimalAux fuel (n / 10) ++ [Char.ofNat (48 + n % 10)]

/-- Decimal rendering of a natural number (`format!` of a `u64`). -/
def natDecimal (n : Nat) : List Char :=
  if n = 0 then ['0'] else natDecimalAux 64 n

/-- Serialize a key to its storage form (`CacheKey::to_storage_key`):
`"ns:id"` or `"ns:id:v<version>"`. -/
def CacheKey.to_storage_key (k : CacheKey) : List Char :=
  match k.version with
  | some v => k.nspace ++ ':' :: (k.id ++ ':' :: 'v' :: natDecimal v)
  | Option.none => k.nspace ++ ':' :: k.id

/-- Split a string at the first occurrence of a separator, returning the parts
before and after it (helper for `str::splitn`). -/
def splitFirst (sep : Char) : List Char → Option (List Char × List Char)
  | [] => Option.none
  | c :: rest =>
    if c = sep then some ([], rest)
    else
      match splitFirst sep rest with
      | some (a, b) => some (c :: a, b)
      | Option.none => Option.none

/-- Model of Rust `str::splitn(n, sep)`: at most `n` pieces, the last piece
holding the unsplit remainder. -/
def splitn : Nat → Char → List Char → List (List Char)
  | 0, _, _ => []
  | 1, _, s => [s]
  | n+2, sep, s =>
    match splitFirst sep s with
    | Option.none => [s]
    | some (a, b) => a :: splitn (n + 1) sep b

/-- Strip one optional leading `'+'` (the sign handling of Rust's `u64`
parser). -/
def stripPlus : List Char → List Char
  | c :: rest => if c = '+' then rest else c :: rest
  | [] => []

/-- Accumulated value of a decimal digit string. -/
def digitsVal (l : List Char) : Nat :=
  l.foldl (fun acc c => acc * 10 + (c.toNat - 48)) 0

/-- Model of Rust `str::parse::<u64>()`: an optional leading `'+'`, then one or
more ASCII digits, rejecting values that do not fit in 64 bits. -/
def parseU64 (s : List Char) : Option Nat :=
  let digits := stripPlus s
  if digits.isEmpty then Option.none
  else if digits.all Char.isDigit then
    if digitsVal digits < U64_MODULUS then some (digitsVal digits) else Option.none
  else Option.none

/-- Parse a storage key back into a `CacheKey`
(`CacheKey::from_storage_key`): split on `':'` into at most three parts; a
third part must start with `'v'` and parse as a `u64`. -/
def CacheKey.from_storage_key (s : List Char) : Option CacheKey :=
  match splitn 3 ':' s with
  | [nspace, id] => some ⟨nspace, id, Option.none⟩
  | [nspace, id, vstr] =>
    match vstr with
    | c :: rest =>
      if c = 'v' then (parseU64 rest).map (fun v => ⟨nspace, id, some v⟩)
      else Option.none
    | [] => Option.none
  | _ => Option.none

-- =============================================================================
-- src/cache/entry.rs: cache data and entries
-- =============================================================================

/-- Compression algorithm identifier (`CompressionAlgorithm` in entry.rs). -/
inductive CompressionAlgorithm where
  | none
  | lz4
  | zstd
  | snappy
deriving DecidableEq, Repr

/-- Cached payload with compression info (`CacheData` in entry.rs). -/
structure CacheData where
  bytes : List Nat
  original_size : Nat
  compressed : Bool
  compression_algorithm : Option CompressionAlgorithm
deriving DecidableEq, Repr

/-- Uncompressed payload constructor (`CacheData::uncompressed`). -/
def CacheData.uncompressed (bytes : List Nat) : CacheData :=
  ⟨bytes, bytes.length, false, Option.none⟩

/-- Compressed payload constructor (`CacheData::compressed`). -/
def CacheData.compressedData (bytes : List Nat) (original_size : Nat)
    (algorithm : CompressionAlgorithm) : CacheData :=
  ⟨bytes, original_size, true, some algorithm⟩

/-- Stored size of a payload (`CacheData::stored_size`). -/
def CacheData.stored_size (d : CacheData) : Nat := d.bytes.length

/-- Cache entry (`CacheEntry` in entry.rs). Timestamps are integer seconds
taken from an explicit clock parameter at the call sites. -/
structure CacheEntry where
  key : CacheKey
  data : CacheData
  tier : CacheTier
  created_at : Int
  last_accessed : Int
  access_count : Nat
  ttl_seconds : Option Nat
deriving DecidableEq, Repr

/-- Entry constructor (`CacheEntry::new`): `access_count` starts at 1 and both
timestamps are the current time. -/
def CacheEntry.new (key : CacheKey) (data : CacheData) (tier : CacheTier)
    (now : Int) : CacheEntry :=
  ⟨key, data, tier, now, now, 1, Option.none⟩

/-- Stored size of an entry (`CacheEntry::stored_size`). -/
def CacheEntry.stored_size (e : CacheEntry) : Nat := e.data.stored_size

/-- Lightweight metadata used by the LRU tracker (`EntryMetadata`). -/
structure EntryMetadata where
  key : CacheKey
  size_bytes : Nat
  tier : CacheTier
  last_accessed_ms : Nat
  access_count : Nat
deriving DecidableEq, Repr

/-- Projection from an entry (`EntryMetadata::from_entry`); the millisecond
timestamp is taken from the entry's last-access time. -/
def EntryMetadata.from_entry (e : CacheEntry) : EntryMetadata :=
  ⟨e.key, e.stored_size, e.tier, (e.last_accessed * 1000).toNat, e.access_count⟩

-- =============================================================================
-- src/cache/compression.rs: compression manager
-- =============================================================================

/-- Compression configuration (`CompressionConfig`). -/
structure CompressionConfig where
  default_algorithm : CompressionAlgorithm
  min_size_bytes : Nat
  level : Int
  fallback_on_failure : Bool
deriving DecidableEq, Repr

/-- Compression manager (`CompressionManager`). The lz4/zstd/snappy
implementations are external crates, so their outcome on a given input is
abstracted as the function `compressorImpl` (an `Ok` payload or an error). -/
structure CompressionManager where
  config : CompressionConfig
  compressorImpl : CompressionAlgorithm → List Nat → Except String (List Nat)

/-- Dispatch to a compressor (`CompressionManager::compressor` followed by
`Compressor::compress`): the `None` algorithm is the in-repo `NoopCompressor`,
which always succeeds with a verbatim copy; the others are abstract. -/
def CompressionManager.compressorRun (m : CompressionManager)
    (alg : CompressionAlgorithm) (data : List Nat) : Except String (List Nat) :=
  match alg with
  | CompressionAlgorithm.none => Except.ok data
  | _ => m.compressorImpl alg data

/-- Compress with the default algorithm (`CompressionManager::compress`).
Note that the source returns the original bytes with algorithm `None` in both
error arms; with `fallback_on_failure == false` it merely logs a warning,
because the Rust signature returns a plain pair and cannot carry an error. -/
def CompressionManager.compress (m : CompressionManager) (data : List Nat) :
    List Nat × CompressionAlgorithm :=
  if data.length < m.config.min_size_bytes then (data, CompressionAlgorithm.none)
  else
    match m.compressorRun m.config.default_algorithm data with
    | Except.ok compressed =>
      if compressed.length < data.length then (compressed, m.config.default_algorithm)
      else (data, CompressionAlgorithm.none)
    | Except.error _ =>
      if m.config.fallback_on_failure then (data, CompressionAlgorithm.none)
      else (data, CompressionAlgorithm.none)

/-- Compress with a specific algorithm (`CompressionManager::compress_with`).
Unlike `compress`, this returns a `Result` and surfaces the error when
`fallback_on_failure` is false. -/
def CompressionManager.compress_with (m : CompressionManager) (data : List Nat)
    (algorithm : CompressionAlgorithm) :
    Except String (List Nat × CompressionAlgorithm) :=
  if algorithm = CompressionAlgorithm.none then
    Except.ok (data, CompressionAlgorithm.none)
  else
    match m.compressorRun algorithm data with
    | Except.ok compressed =>
      if compressed.length < data.length then Except.ok (compressed, algorithm)
      else Except.ok (data, CompressionAlgorithm.none)
    | Except.error e =>
      if m.config.fallback_on_failure then Except.ok (data, CompressionAlgorithm.none)
      else Except.error e

-- =============================================================================
-- Exact model of the f64 arithmetic used by TierConfig::eviction_watermark
-- =============================================================================

/-- Structural base-2 logarithm with explicit fuel: for `0 < n < 2^fuel` this
is the exponent of the highest set bit. -/
def log2Fuel : Nat → Nat → Nat
  | 0, _ => 0
  | fuel+1, n => if n ≥ 2 then log2Fuel fuel (n / 2) + 1 else 0

/-- Bit width of a natural number (0 for 0). All significands that occur are
far below `2 ^ 4096`, so the fuel never runs out. -/
def natBits (n : Nat) : Nat :=
  if n = 0 then 0 else log2Fuel 4096 n + 1

/-- Exact value of a binary floating-point number: `sig * 2 ^ exp`. All values
occurring in the model are nonnegative. -/
structure Dyadic where
  sig : Nat
  exp : Int
deriving DecidableEq, Repr

/-- Rational value of a dyadic. -/
def Dyadic.toRat (d : Dyadic) : ℚ := (d.sig : ℚ) * (2 : ℚ) ^ d.exp

/-- Round `m * 2 ^ e` to a 53-bit significand with round-half-to-even. This is
IEEE-754 binary64 rounding in the normal range (all configuration values stay
far away from exponent overflow and from subnormals). -/
def roundSig53 (m : Nat) (e : Int) : Dyadic :=
  let b := natBits m
  if b ≤ 53 then ⟨m, e⟩
  else
    let s := b - 53
    let q := m / 2 ^ s
    let r := m % 2 ^ s
    let half := 2 ^ (s - 1)
    let q2 :=
      if r < half then q
      else if half < r then q + 1
      else if q % 2 = 0 then q else q + 1
    ⟨q2, e + s⟩

/-- Conversion `u64 as f64` (rounds to 53 significant bits). -/
def f64ofNat (n : Nat) : Dyadic := roundSig53 n 0

/-- Double-precision multiplication: exact product, then binary64 rounding. -/
def f64mul (a b : Dyadic) : Dyadic := roundSig53 (a.sig * b.sig) (a.exp + b.exp)

/-- Truncation of a nonnegative dyadic toward zero. -/
def Dyadic.truncNat (d : Dyadic) : Nat :=
  if 0 ≤ d.exp then d.sig * 2 ^ d.exp.toNat else d.sig / 2 ^ (-d.exp).toNat

/-- Conversion `f64 as u64` on nonnegative values: truncate toward zero and
saturate at `u64::MAX`. -/
def f64toU64 (d : Dyadic) : Nat := min d.truncNat (U64_MODULUS - 1)

-- =============================================================================
-- src/cache/tier.rs: per-tier configuration
-- =============================================================================

/-- Per-tier configuration (`TierConfig`). The `eviction_threshold` is an
`f32` in the source and is modelled by its exact dyadic value (a 24-bit
significand times a power of two). The unused display-only field
`target_compression_` `ratio` is omitted. -/
structure TierConfig where
  tier : CacheTier
  capacity_bytes : Nat
  eviction_threshold : Dyadic
  enable_demotion : Bool
  enable_compression : Bool
deriving DecidableEq, Repr

/-- Eviction watermark (`TierConfig::eviction_watermark`): the source computes
`(capacity_bytes as f64 * eviction_threshold as f64) as u64`; the `f32`-to-
`f64` conversion of the threshold is exact. -/
def TierConfig.eviction_watermark (cfg : TierConfig) : Nat :=
  f64toU64 (f64mul (f64ofNat cfg.capacity_bytes) cfg.eviction_threshold)

/-- The capacity decision of `MultiTierCache::ensure_capacity` as a pure
function of the watermark, the tier's current `bytes_stored` metric and the
incoming size: `Option.none` means no-op, `some n` means `evict(tier, n)` is
requested. Inside the else-branch `current + needed > watermark`, so the
`saturating_sub` of the source equals plain subtraction. -/
def ensureCapacityPlan (watermark current needed : Nat) : Option Nat :=
  if current + needed ≤ watermark then Option.none
  else some (current + needed - watermark + watermark / 10)

-- =============================================================================
-- src/cache/lru.rs: sharded LRU tracker
-- =============================================================================

/-- Eviction candidate (`EvictionCandidate` in lru.rs). The `f64` score is
modelled as a rational (scores are finite and never NaN for the claims'
purposes). -/
structure EvictionCandidate where
  key : CacheKey
  size_bytes : Nat
  tier : CacheTier
  demotion_target : Option CacheTier
  score : ℚ
deriving DecidableEq, Repr

/-- Build a candidate from tracked metadata, as the closure inside
`LruShard::get_eviction_candidates` does. The score computation
(`calculate_score`) depends on the wall clock and on `f64` transcendentals, so
it is abstracted as the function `scoreOf` evaluated at the scan instant. -/
def toCandidate (scoreOf : EntryMetadata → ℚ) (m : EntryMetadata) : EvictionCandidate :=
  ⟨m.key, m.size_bytes, m.tier, m.tier.demotion_target, scoreOf m⟩

/-- Insert into a score-descending list, after all entries of greater-or-equal
score (the stable placement). -/
def insertByScoreDesc (x : EvictionCandidate) :
    List EvictionCandidate → List EvictionCandidate
  | [] => [x]
  | y :: ys => if x.score ≤ y.score then y :: insertByScoreDesc x ys else x :: y :: ys

/-- Stable sort by score descending, modelling the source's
`sort_by(|a, b| b.score.partial_cmp(&a.score) ...)` (a stable sort; ties keep
their original relative order). -/
def sortByScoreDesc (l : List EvictionCandidate) : List EvictionCandidate :=
  l.foldl (fun acc x => insertByScoreDesc x acc) []

/-- One LRU shard (`LruShard`): an insertion-ordered map from storage key to
metadata (front = least recently used) plus a byte total. -/
structure LruShardState where
  entries : List (List Char × EntryMetadata)
  total_bytes : Nat
deriving DecidableEq, Repr

/-- Track an entry in a shard (`LruShard::track`): drop any previous binding
for the key (subtracting its size), then append at the back. -/
def LruShardState.track (sh : LruShardState) (meta : EntryMetadata) : LruShardState :=
  let key := meta.key.to_storage_key
  let removed : LruShardState :=
    match alookup key sh.entries with
    | some old => ⟨aerase key sh.entries, sh.total_bytes - old.size_bytes⟩
    | Option.none => sh
  ⟨removed.entries ++ [(key, meta)], removed.total_bytes + meta.size_bytes⟩

/-- Remove an entry from a shard (`LruShard::remove`). -/
def LruShardState.removeKey (sh : LruShardState) (key : CacheKey) :
    LruShardState × Option EntryMetadata :=
  let storage_key := key.to_storage_key
  match alookup storage_key sh.entries with
  | some old => (⟨aerase storage_key sh.entries, sh.total_bytes - old.size_bytes⟩, some old)
  | Option.none => (sh, Option.none)

/-- Candidates of one shard (`LruShard::get_eviction_candidates`): filter to
the tier (in insertion order), score, sort by score descending, truncate to
`count`. -/
def LruShardState.get_eviction_candidates (sh : LruShardState) (tier : CacheTier)
    (count : Nat) (scoreOf : EntryMetadata → ℚ) : List EvictionCandidate :=
  (sortByScoreDesc (((sh.entries.map Prod.snd).filter
    (fun m => m.tier = tier)).map (toCandidate scoreOf))).take count

/-- The selection loop at the end of
`ShardedLruTracker::get_eviction_candidates`: push candidates in order,
accumulating sizes, and stop right after the running total reaches
`bytes_needed`. -/
def selectCover (bytes_needed : Nat) : List EvictionCandidate → List EvictionCandidate
  | [] => []
  | c :: rest =>
    if bytes_needed ≤ c.size_bytes then [c]
    else c :: selectCover (bytes_needed - c.size_bytes) rest

/-- The sharded tracker (`ShardedLruTracker`): 64 shards plus a global entry
count. The shard routing hash (`CacheKey::shard_index`, a `DefaultHasher`) is
abstracted as the parameter `shardIndex` of the operations. -/
structure ShardedLruTracker where
  shards : List LruShardState
  entry_count : Nat
deriving DecidableEq, Repr

/-- Tracker with 64 empty shards (`ShardedLruTracker::new`). -/
def ShardedLruTracker.empty : ShardedLruTracker :=
  ⟨List.replicate 64 ⟨[], 0⟩, 0⟩

/-- Track an entry (`ShardedLruTracker::track`): route to the key's shard and
bump the global count when the key was new to that shard. -/
def ShardedLruTracker.track (shardIndex : CacheKey → Nat) (t : ShardedLruTracker)
    (meta : EntryMetadata) : ShardedLruTracker :=
  let i := shardIndex meta.key % 64
  let sh := t.shards.getD i ⟨[], 0⟩
  let was_new := (alookup meta.key.to_storage_key sh.entries).isNone
  ⟨t.shards.set i (sh.track meta), if was_new then t.entry_count + 1 else t.entry_count⟩

/-- Remove an entry (`ShardedLruTracker::remove`). -/
def ShardedLruTracker.removeKey (shardIndex : CacheKey → Nat) (t : ShardedLruTracker)
    (key : CacheKey) : ShardedLruTracker × Option EntryMetadata :=
  let i := shardIndex key % 64
  let sh := t.shards.getD i ⟨[], 0⟩
  match sh.removeKey key with
  | (sh1, some old) => (⟨t.shards.set i sh1, t.entry_count - 1⟩, some old)
  | (_, Option.none) => (t, Option.none)

/-- Global candidate selection (`ShardedLruTracker::get_eviction_candidates`):
each shard contributes its top 100 candidates by score, the union is sorted by
score descending, and candidates are selected front-to-back until their sizes
cover `bytes_needed`. -/
def ShardedLruTracker.get_eviction_candidates (t : ShardedLruTracker)
    (scoreOf : EntryMetadata → ℚ) (tier : CacheTier) (bytes_needed : Nat) :
    List EvictionCandidate :=
  let all := (t.shards.map
    (fun sh => sh.get_eviction_candidates tier 100 scoreOf)).flatten
  selectCover bytes_needed (sortByScoreDesc all)

-- =============================================================================
-- src/error.rs: the error variants reachable from the modelled operations
-- =============================================================================

/-- Errors of the modelled cache and registry operations (the relevant
variants of the repo's `Error` enum; the interpolated values of the formatted
messages are not reproduced). -/
inductive CacheError where
  | Internal (msg : String)
  | BackendUnavailable (backend : String)
  | NodeAlreadyRegistered (node_id : List Char)
  | NodeNotFound (node_id : List Char)
  | DeviceNotFound (device : List Char)
deriving DecidableEq, Repr

-- =============================================================================
-- src/cache/storage/memory.rs: L1 in-memory backend
-- =============================================================================

/-- L1 memory backend (`MemoryStorage`): a concurrent map keyed by storage
key plus atomic size and entry counters. -/
structure MemoryStorage where
  entries : List (List Char × CacheEntry)
  size_bytes : Nat
  entry_count : Nat
deriving DecidableEq, Repr

/-- Empty memory backend. -/
def MemoryStorage.empty : MemoryStorage := ⟨[], 0, 0⟩

/-- Upsert (`MemoryStorage::put`). The source decides new-versus-replacement
by `old_size == 0`, where `old_size` is 0 both when the key is absent and when
the present entry stores zero bytes. -/
def MemoryStorage.put (st : MemoryStorage) (entry : CacheEntry) : MemoryStorage :=
  let storage_key := entry.key.to_storage_key
  let new_size := entry.stored_size
  let old_size :=
    match alookup storage_key st.entries with
    | some e => e.stored_size
    | Option.none => 0
  if old_size = 0 then
    ⟨ainsert storage_key entry st.entries, st.size_bytes + new_size, st.entry_count + 1⟩
  else
    ⟨ainsert storage_key entry st.entries,
      if new_size > old_size then st.size_bytes + (new_size - old_size)
      else st.size_bytes - (old_size - new_size),
      st.entry_count⟩

/-- Delete (`MemoryStorage::delete`). -/
def MemoryStorage.delete (st : MemoryStorage) (key : CacheKey) :
    MemoryStorage × Option CacheEntry :=
  let storage_key := key.to_storage_key
  match alookup storage_key st.entries with
  | some e =>
    (⟨aerase storage_key st.entries, st.size_bytes - e.stored_size, st.entry_count - 1⟩,
      some e)
  | Option.none => (st, Option.none)

-- =============================================================================
-- src/cache/storage/local.rs: L2 local-disk backend
-- =============================================================================

/-- L2 local-disk backend (`LocalStorage`). The data and sidecar `.meta` files
of an entry are modelled by the entry itself, indexed by storage key as the
in-memory index does; filesystem I/O is assumed to succeed. -/
structure LocalStorage where
  index : List (List Char × CacheEntry)
  size_bytes : Nat
  entry_count : Nat
deriving DecidableEq, Repr

/-- Empty local backend. -/
def LocalStorage.empty : LocalStorage := ⟨[], 0, 0⟩

/-- Upsert (`LocalStorage::put`): entry count is bumped exactly when the index
insertion found no previous binding; size accounting uses the data file's
previous length (0 when absent). -/
def LocalStorage.put (st : LocalStorage) (entry : CacheEntry) : LocalStorage :=
  let storage_key := entry.key.to_storage_key
  let new_size := entry.stored_size
  let old_size :=
    match alookup storage_key st.index with
    | some e => e.stored_size
    | Option.none => 0
  let was_new := (alookup storage_key st.index).isNone
  ⟨ainsert storage_key entry st.index,
    if old_size = 0 then st.size_bytes + new_size
    else if new_size > old_size then st.size_bytes + (new_size - old_size)
    else st.size_bytes - (old_size - new_size),
    if was_new then st.entry_count + 1 else st.entry_count⟩

/-- Delete (`LocalStorage::delete`), on the success path of the file I/O. -/
def LocalStorage.delete (st : LocalStorage) (key : CacheKey) :
    LocalStorage × Option CacheEntry :=
  let storage_key := key.to_storage_key
  match alookup storage_key st.index with
  | some e =>
    (⟨aerase storage_key st.index, st.size_bytes - e.stored_size, st.entry_count - 1⟩,
      some e)
  | Option.none => (st, Option.none)

-- =============================================================================
-- src/cache/storage/persistent.rs: L3 persistent backend (in-memory mock)
-- =============================================================================

/-- L3 persistent backend (`PersistentStorage`): the in-memory mock store with
an availability gate. Stored entries (`StoredEntry`) hold the same payload and
metadata as the cache entry they were built from, so they are modelled by the
entry itself. -/
structure PersistentStorage where
  store : List (List Char × CacheEntry)
  size_bytes : Nat
  entry_count : Nat
  key_prefix : List Char
  available : Bool
deriving DecidableEq, Repr

/-- Fresh available backend with the default key prefix. -/
def PersistentStorage.empty : PersistentStorage := ⟨[], 0, 0, [], true⟩

/-- Prefixed storage key (`PersistentStorage::prefixed_key`). -/
def PersistentStorage.prefixed_key (st : PersistentStorage) (key : CacheKey) : List Char :=
  st.key_prefix ++ key.to_storage_key

/-- Upsert (`PersistentStorage::put`): fails when unavailable. The stat update
treats `old_size == 0` as "new entry", where `old_size` is the byte length of
the replaced stored data (0 both when absent and when the stored data was
empty). -/
def PersistentStorage.put (st : PersistentStorage) (entry : CacheEntry) :
    Except CacheError PersistentStorage :=
  if !st.available then Except.error (CacheError.BackendUnavailable "persistent-cache")
  else
    let prefixed := st.prefixed_key entry.key
    let new_size := entry.stored_size
    let old_size :=
      match alookup prefixed st.store with
      | some old => old.stored_size
      | Option.none => 0
    if old_size = 0 then
      Except.ok ⟨ainsert prefixed entry st.store, st.size_bytes + new_size,
        st.entry_count + 1, st.key_prefix, st.available⟩
    else
      Except.ok ⟨ainsert prefixed entry st.store,
        if new_size > old_size then st.size_bytes + (new_size - old_size)
        else st.size_bytes - (old_size - new_size),
        st.entry_count, st.key_prefix, st.available⟩

/-- Delete (`PersistentStorage::delete`): fails when unavailable. -/
def PersistentStorage.delete (st : PersistentStorage) (key : CacheKey) :
    Except CacheError (PersistentStorage × Option CacheEntry) :=
  if !st.available then Except.error (CacheError.BackendUnavailable "persistent-cache")
  else
    let prefixed := st.prefixed_key key
    match alookup prefixed st.store with
    | some e =>
      Except.ok (⟨aerase prefixed st.store, st.size_bytes - e.stored_size,
        st.entry_count - 1, st.key_prefix, st.available⟩, some e)
    | Option.none => Except.ok (st, Option.none)

-- =============================================================================
-- src/cache/metrics.rs: per-tier metrics
-- =============================================================================

/-- Per-tier metric block (`CacheTierMetrics`); the freshness timestamp is
omitted (it carries no information used by any claim). -/
structure CacheTierMetrics where
  hits : Nat
  misses : Nat
  bytes_stored : Nat
  entry_count : Nat
  evictions : Nat
  demotions : Nat
deriving DecidableEq, Repr

/-- Zeroed metric block (`CacheTierMetrics::new`). -/
def CacheTierMetrics.new : CacheTierMetrics := ⟨0, 0, 0, 0, 0, 0⟩

/-- Record an added entry (`record_put`). -/
def CacheTierMetrics.record_put (m : CacheTierMetrics) (size : Nat) : CacheTierMetrics :=
  { m with entry_count := m.entry_count + 1, bytes_stored := m.bytes_stored + size }

/-- Record a removed entry (`record_remove`); the `fetch_sub` wraps on u64. -/
def CacheTierMetrics.record_remove (m : CacheTierMetrics) (size : Nat) : CacheTierMetrics :=
  { m with entry_count := u64wrapSub m.entry_count 1,
           bytes_stored := u64wrapSub m.bytes_stored size }

/-- Record an eviction (`record_eviction`). -/
def CacheTierMetrics.record_eviction (m : CacheTierMetrics) (size : Nat) : CacheTierMetrics :=
  { m.record_remove size with evictions := m.evictions + 1 }

/-- Record a demotion (`record_demotion`). -/
def CacheTierMetrics.record_demotion (m : CacheTierMetrics) (size : Nat) : CacheTierMetrics :=
  { m.record_remove size with demotions := m.demotions + 1 }

/-- The three tier metric blocks (`CacheMetrics`). -/
structure CacheMetrics where
  l1 : CacheTierMetrics
  l2 : CacheTierMetrics
  l3 : CacheTierMetrics
deriving DecidableEq, Repr

/-- Zeroed metrics. -/
def CacheMetrics.new : CacheMetrics := ⟨CacheTierMetrics.new, CacheTierMetrics.new, CacheTierMetrics.new⟩

/-- Read a tier's block (`CacheMetrics::tier`). -/
def CacheMetrics.tierGet (m : CacheMetrics) : CacheTier → CacheTierMetrics
  | CacheTier.L1Memory => m.l1
  | CacheTier.L2Local => m.l2
  | CacheTier.L3Persistent => m.l3

/-- Apply an update to a tier's block. -/
def CacheMetrics.tierUpdate (m : CacheMetrics) (tier : CacheTier)
    (f : CacheTierMetrics → CacheTierMetrics) : CacheMetrics :=
  match tier with
  | CacheTier.L1Memory => { m with l1 := f m.l1 }
  | CacheTier.L2Local => { m with l2 := f m.l2 }
  | CacheTier.L3Persistent => { m with l3 := f m.l3 }

-- =============================================================================
-- src/cache/manager.rs: multi-tier cache manager (write path and eviction)
-- =============================================================================

/-- Manager configuration (`MultiTierCacheConfig`); the prefetch and event
channel settings are not used by the modelled operations. -/
structure MultiTierCacheConfig where
  l1 : TierConfig
  l2 : TierConfig
  l3 : TierConfig
  compression : CompressionConfig
  auto_promote : Bool

/-- Multi-tier cache state (`MultiTierCache`). Events are fire-and-forget
broadcasts and do not affect the state, so they are not modelled. -/
structure MultiTierCache where
  l1 : MemoryStorage
  l2 : LocalStorage
  l3 : PersistentStorage
  lru : ShardedLruTracker
  compression : CompressionManager
  metrics : CacheMetrics
  config : MultiTierCacheConfig

/-- Per-tier configuration lookup (`MultiTierCache::tier_config`). -/
def MultiTierCache.tier_config (st : MultiTierCache) : CacheTier → TierConfig
  | CacheTier.L1Memory => st.config.l1
  | CacheTier.L2Local => st.config.l2
  | CacheTier.L3Persistent => st.config.l3

/-- Store an entry in one tier's backend (the `match tier` blocks of
`put_with_tier`, `promote` and `demote`); only the L3 backend can fail. -/
def MultiTierCache.putToTier (st : MultiTierCache) (tier : CacheTier)
    (entry : CacheEntry) : Except CacheError MultiTierCache :=
  match tier with
  | CacheTier.L1Memory => Except.ok { st with l1 := st.l1.put entry }
  | CacheTier.L2Local => Except.ok { st with l2 := st.l2.put entry }
  | CacheTier.L3Persistent =>
    match st.l3.put entry with
    | Except.ok l3 => Except.ok { st with l3 := l3 }
    | Except.error e => Except.error e

/-- Delete a key from one tier's backend (used by the eviction loop); an L3
unavailability error leaves the state unchanged and yields no entry, matching
the `if let Ok(Some(entry))` guard at the call site. -/
def MultiTierCache.deleteFromTier (st : MultiTierCache) (tier : CacheTier)
    (key : CacheKey) : MultiTierCache × Option CacheEntry :=
  match tier with
  | CacheTier.L1Memory =>
    match st.l1.delete key with
    | (l1, r) => ({ st with l1 := l1 }, r)
  | CacheTier.L2Local =>
    match st.l2.delete key with
    | (l2, r) => ({ st with l2 := l2 }, r)
  | CacheTier.L3Persistent =>
    match st.l3.delete key with
    | Except.ok (l3, r) => ({ st with l3 := l3 }, r)
    | Except.error _ => (st, Option.none)

/-- Fuel for the demotion cascade. The cascade depth is bounded by the three
tiers (L1 eviction → L2 demotion → L2 eviction → L3 demotion → L3 eviction →
no further demotion target), so any fuel of at least 8 makes the model agree
with the source. -/
def cascadeFuel : Nat := 8

mutual

/-- Capacity maintenance (`MultiTierCache::ensure_capacity`): read the tier's
`bytes_stored` metric, compare against the watermark, and evict the planned
amount when above it. The source's `evict` never returns an error (all
fallible steps inside it are swallowed), so no error path is modelled. -/
def MultiTierCache.ensure_capacity (shardIndex : CacheKey → Nat)
    (scoreOf : EntryMetadata → ℚ) :
    Nat → MultiTierCache → CacheTier → Nat → MultiTierCache
  | 0, st, _, _ => st
  | fuel+1, st, tier, needed =>
    let cfg := st.tier_config tier
    let current := (st.metrics.tierGet tier).bytes_stored
    match ensureCapacityPlan cfg.eviction_watermark current needed with
    | Option.none => st
    | some to_evict =>
      (MultiTierCache.evict shardIndex scoreOf fuel st tier to_evict).1

/-- Eviction (`MultiTierCache::evict`): fetch candidates covering the target
and walk them. -/
def MultiTierCache.evict (shardIndex : CacheKey → Nat)
    (scoreOf : EntryMetadata → ℚ) :
    Nat → MultiTierCache → CacheTier → Nat → MultiTierCache × Nat
  | 0, st, _, _ => (st, 0)
  | fuel+1, st, tier, bytes_to_free =>
    let candidates := st.lru.get_eviction_candidates scoreOf tier bytes_to_free
    MultiTierCache.evictLoop shardIndex scoreOf fuel st tier bytes_to_free candidates 0

/-- The candidate loop inside `MultiTierCache::evict`: stop once freed bytes
reach the target; otherwise delete the candidate from the tier's backend and
either demote it (when enabled and possible) or account an eviction and drop
it from the LRU. -/
def MultiTierCache.evictLoop (shardIndex : CacheKey → Nat)
    (scoreOf : EntryMetadata → ℚ) :
    Nat → MultiTierCache → CacheTier → Nat → List EvictionCandidate → Nat →
      MultiTierCache × Nat
  | _, st, _, _, [], freed => (st, freed)
  | fuel, st, tier, target, c :: rest, freed =>
    if target ≤ freed then (st, freed)
    else
      match st.deleteFromTier tier c.key with
      | (st1, some entry) =>
        let size := entry.stored_size
        let demotePair :=
          if (st1.tier_config tier).enable_demotion then
            MultiTierCache.demote shardIndex scoreOf fuel st1 entry
          else (st1, false)
        let st2 := demotePair.1
        let demoted := demotePair.2
        let st3 :=
          if demoted then
            { st2 with metrics := (st2.metrics.tierUpdate tier (fun m => m.record_demotion size)) }
          else
            { st2 with metrics := (st2.metrics.tierUpdate tier (fun m => m.record_eviction size)) }
        let st4 :=
          if demoted then st3
          else { st3 with lru := (st3.lru.removeKey shardIndex c.key).1 }
        MultiTierCache.evictLoop shardIndex scoreOf fuel st4 tier target rest (freed + size)
      | (st1, Option.none) =>
        MultiTierCache.evictLoop shardIndex scoreOf fuel st1 tier target rest freed

/-- Demotion (`MultiTierCache::demote`): move the already-deleted entry one
tier down, making room there first; errors from the target tier's `put` are
swallowed at the call site (`unwrap_or(false)`), keeping prior state changes.
Note the source records the demotion metric here and again in the eviction
loop. -/
def MultiTierCache.demote (shardIndex : CacheKey → Nat)
    (scoreOf : EntryMetadata → ℚ) :
    Nat → MultiTierCache → CacheEntry → MultiTierCache × Bool
  | 0, st, _ => (st, false)
  | fuel+1, st, entry =>
    match entry.tier.demotion_target with
    | Option.none => (st, false)
    | some target =>
      let st1 := MultiTierCache.ensure_capacity shardIndex scoreOf fuel st target
        entry.stored_size
      let demoted_entry := { entry with tier := target }
      match st1.putToTier target demoted_entry with
      | Except.error _ => (st1, false)
      | Except.ok st2 =>
        let st3 := { st2 with
          lru := st2.lru.track shardIndex (EntryMetadata.from_entry demoted_entry) }
        let st4 := { st3 with metrics :=
          ((st3.metrics.tierUpdate entry.tier
            (fun m => m.record_demotion entry.stored_size)).tierUpdate target
            (fun m => m.record_put entry.stored_size)) }
        (st4, true)

end

/-- Steps 5-7 of the write path (`MultiTierCache::put_with_tier` after
`ensure_capacity`): store in the chosen tier's backend, track in the LRU, and
record the put; a backend error is returned with the state as mutated so
far. -/
def MultiTierCache.storeAndTrack (shardIndex : CacheKey → Nat)
    (st1 : MultiTierCache) (tier : CacheTier) (entry : CacheEntry) :
    MultiTierCache × Except CacheError CacheTier :=
  match st1.putToTier tier entry with
  | Except.error e => (st1, Except.error e)
  | Except.ok st2 =>
    let st3 := { st2 with lru := st2.lru.track shardIndex (EntryMetadata.from_entry entry) }
    let st4 := { st3 with metrics := (st3.metrics.tierUpdate tier (fun m => m.record_put entry.stored_size)) }
    (st4, Except.ok tier)

/-- Write path with a caller-specified tier (`MultiTierCache::put_with_tier`):
compress if the tier's config asks for it, build the entry, make room, store,
track in the LRU, and record the put. Note there is no validation against the
tier's `max_object_size`. -/
def MultiTierCache.put_with_tier (shardIndex : CacheKey → Nat)
    (scoreOf : EntryMetadata → ℚ) (st : MultiTierCache) (now : Int)
    (key : CacheKey) (data : List Nat) (tier : CacheTier) :
    MultiTierCache × Except CacheError CacheTier :=
  let original_size := data.length
  let tier_config := st.tier_config tier
  let compressed :=
    if tier_config.enable_compression then st.compression.compress data
    else (data, CompressionAlgorithm.none)
  let stored_data := compressed.1
  let algorithm := compressed.2
  let cache_data :=
    if algorithm ≠ CompressionAlgorithm.none then
      CacheData.compressedData stored_data original_size algorithm
    else CacheData.uncompressed stored_data
  let entry := CacheEntry.new key cache_data tier now
  let st1 := MultiTierCache.ensure_capacity shardIndex scoreOf cascadeFuel st tier
    entry.stored_size
  MultiTierCache.storeAndTrack shardIndex st1 tier entry

/-- Write path (`MultiTierCache::put`): reject objects above the bypass
threshold, select the tier by size, and delegate to `put_with_tier`. -/
def MultiTierCache.put (shardIndex : CacheKey → Nat)
    (scoreOf : EntryMetadata → ℚ) (st : MultiTierCache) (now : Int)
    (key : CacheKey) (data : List Nat) :
    MultiTierCache × Except CacheError CacheTier :=
  let size := data.length
  if size > CACHE_BYPASS_SIZE_BYTES then
    (st, Except.error (CacheError.Internal "Object size exceeds cache bypass threshold"))
  else
    match CacheTier.for_size size with
    | Option.none => (st, Except.error (CacheError.Internal "No suitable tier for size"))
    | some tier => MultiTierCache.put_with_tier shardIndex scoreOf st now key data tier

-- =============================================================================
-- src/cache/prefetch.rs: prefetcher queue
-- =============================================================================

/-- Prefetcher configuration (`PrefetchConfig`). -/
structure PrefetchConfig where
  max_concurrent : Nat
  max_queue_size : Nat
  target_tier : CacheTier
  enabled : Bool
deriving DecidableEq, Repr

/-- A prefetch request (`PrefetchRequest`); priority is a `u8`. -/
structure PrefetchRequest where
  keys : List CacheKey
  priority : Nat
  notify : Bool
deriving DecidableEq, Repr

/-- Queue transition of `Prefetcher::submit`. When disabled, submit is a no-op
that still succeeds. At capacity, the source pops from the front of the queue
until the length is below the bound, then inserts the new request before the
first queued request of strictly lower priority (so the queue is ordered by
priority descending, highest at the front). For `max_queue_size = 0` the
source's pop loop would not terminate; the model is only used with positive
bounds. -/
def Prefetcher.submitQueue (config : PrefetchConfig) (queue : List PrefetchRequest)
    (request : PrefetchRequest) : List PrefetchRequest :=
  if !config.enabled then queue
  else
    let q1 :=
      if config.max_queue_size ≤ queue.length then
        queue.drop (queue.length + 1 - config.max_queue_size)
      else queue
    let pos := q1.findIdx (fun r => r.priority < request.priority)
    List.insertIdx pos request q1

/-- Fold a sequence of submissions through the queue. -/
def Prefetcher.submitAll (config : PrefetchConfig)
    (requests : List PrefetchRequest) : List PrefetchRequest :=
  requests.foldl (fun q r => Prefetcher.submitQueue config q r) []

-- =============================================================================
-- src/hardware/registry/node_registry.rs: sharded node registry
-- =============================================================================

/-- Node identifier (`NodeId`). -/
abbrev NodeId := List Char

/-- The parts of `StorageNodeStatus` read by the registry: the drive list
(only identities matter here) and the capacity figures. -/
structure StorageNodeStatus where
  drives : List (List Char)
  total_capacity_bytes : Nat
  available_capacity_bytes : Nat
deriving DecidableEq, Repr

/-- Registry entry for one node (`NodeEntry`). The per-drive metric blocks,
labels and fault domain play no role in the claims' operations and are
omitted. -/
structure NodeEntry where
  node_id : NodeId
  hostname : List Char
  status : StorageNodeStatus
  registered_at : Int
  last_heartbeat : Int
  online : Bool
deriving DecidableEq, Repr

/-- Entry constructor (`NodeEntry::new`): fresh entries are online with both
timestamps at the current time. -/
def NodeEntry.new (node_id : NodeId) (hostname : List Char)
    (status : StorageNodeStatus) (now : Int) : NodeEntry :=
  ⟨node_id, hostname, status, now, now, true⟩

/-- Global atomic statistics (`GlobalStats`). -/
structure GlobalStats where
  total_nodes : Nat
  online_nodes : Nat
  total_drives : Nat
  total_capacity_bytes : Nat
  available_capacity_bytes : Nat
  registrations : Nat
  deregistrations : Nat
deriving DecidableEq, Repr

/-- Zeroed statistics. -/
def GlobalStats.new : GlobalStats := ⟨0, 0, 0, 0, 0, 0, 0⟩

/-- Registry state (`NodeRegistry`). Every operation on a node routes to the
shard `hash(node_id) mod 256` that owns the key, so the 256 shard maps are
modelled by their union, a single map keyed by node id. -/
structure NodeRegistry where
  nodes : List (NodeId × NodeEntry)
  global_stats : GlobalStats
deriving DecidableEq, Repr

/-- Fresh empty registry. -/
def NodeRegistry.empty : NodeRegistry := ⟨[], GlobalStats.new⟩

/-- Register a node (`NodeRegistry::register`): fail if present, otherwise
insert a fresh online entry and add the matched deltas to every global
counter. -/
def NodeRegistry.register (reg : NodeRegistry) (now : Int) (node_id : NodeId)
    (hostname : List Char) (status : StorageNodeStatus) :
    NodeRegistry × Except CacheError Unit :=
  if (alookup node_id reg.nodes).isSome then
    (reg, Except.error (CacheError.NodeAlreadyRegistered node_id))
  else
    let entry := NodeEntry.new node_id hostname status now
    let s := reg.global_stats
    let stats1 : GlobalStats :=
      ⟨s.total_nodes + 1, s.online_nodes + 1, s.total_drives + status.drives.length,
        s.total_capacity_bytes + status.total_capacity_bytes,
        s.available_capacity_bytes + status.available_capacity_bytes,
        s.registrations + 1, s.deregistrations⟩
    (⟨ainsert node_id entry reg.nodes, stats1⟩, Except.ok ())

/-- Deregister a node (`NodeRegistry::deregister`): remove it and reverse the
deltas; `online_nodes` is only decremented when the entry was online. -/
def NodeRegistry.deregister (reg : NodeRegistry) (node_id : NodeId) :
    NodeRegistry × Except CacheError Unit :=
  match alookup node_id reg.nodes with
  | some entry =>
    let s := reg.global_stats
    let stats1 : GlobalStats :=
      ⟨u64wrapSub s.total_nodes 1,
        if entry.online then u64wrapSub s.online_nodes 1 else s.online_nodes,
        u64wrapSub s.total_drives entry.status.drives.length,
        u64wrapSub s.total_capacity_bytes entry.status.total_capacity_bytes,
        u64wrapSub s.available_capacity_bytes entry.status.available_capacity_bytes,
        s.registrations, s.deregistrations + 1⟩
    (⟨aerase node_id reg.nodes, stats1⟩, Except.ok ())
  | Option.none => (reg, Except.error (CacheError.NodeNotFound node_id))

/-- Heartbeat (`NodeRegistry::heartbeat` via `NodeEntry::heartbeat`): refresh
the timestamp and set `online := true`. The source performs no global-stat
update here. -/
def NodeRegistry.heartbeat (reg : NodeRegistry) (now : Int) (node_id : NodeId) :
    NodeRegistry × Except CacheError Unit :=
  match alookup node_id reg.nodes with
  | some entry =>
    (⟨ainsert node_id { entry with last_heartbeat := now, online := true } reg.nodes,
      reg.global_stats⟩, Except.ok ())
  | Option.none => (reg, Except.error (CacheError.NodeNotFound node_id))

/-- Staleness test used by `RegistryShard::mark_stale_offline`: an online
entry whose heartbeat is strictly older than `max_age_secs` seconds. -/
def staleOnline (now : Int) (max_age_secs : Nat) (e : NodeEntry) : Prop :=
  e.online = true ∧ now - e.last_heartbeat > (max_age_secs : Int)

instance (now : Int) (max_age_secs : Nat) (e : NodeEntry) :
    Decidable (staleOnline now max_age_secs e) := by
  unfold staleOnline
  infer_instance

/-- The per-shard sweep loop of `RegistryShard::mark_stale_offline`: flip
every online stale entry offline and count the flips. -/
def markStaleLoop (now : Int) (max_age_secs : Nat) :
    List (NodeId × NodeEntry) → List (NodeId × NodeEntry) × Nat
  | [] => ([], 0)
  | (id, e) :: rest =>
    let tail := markStaleLoop now max_age_secs rest
    if staleOnline now max_age_secs e then
      ((id, { e with online := false }) :: tail.1, tail.2 + 1)
    else ((id, e) :: tail.1, tail.2)

/-- Sweep (`NodeRegistry::mark_stale_offline`): run the shard sweeps, then
subtract the total flip count from `online_nodes` when it is positive. -/
def NodeRegistry.mark_stale_offline (reg : NodeRegistry) (now : Int)
    (max_age_secs : Nat) : NodeRegistry × Nat :=
  let swept := markStaleLoop now max_age_secs reg.nodes
  let s := reg.global_stats
  let stats1 :=
    if swept.2 > 0 then { s with online_nodes := u64wrapSub s.online_nodes swept.2 }
    else s
  (⟨swept.1, stats1⟩, swept.2)

/-- The registry operations quantified over by the state-invariant claim. -/
inductive RegistryOp where
  | register (now : Int) (node_id : NodeId) (hostname : List Char) (status : StorageNodeStatus)
  | deregister (node_id : NodeId)
  | heartbeat (now : Int) (node_id : NodeId)
  | mark_stale_offline (now : Int) (max_age_secs : Nat)
deriving DecidableEq, Repr

/-- Apply one operation, discarding its result. -/
def NodeRegistry.applyOp (reg : NodeRegistry) : RegistryOp → NodeRegistry
  | RegistryOp.register now node_id hostname status =>
    (reg.register now node_id hostname status).1
  | RegistryOp.deregister node_id => (reg.deregister node_id).1
  | RegistryOp.heartbeat now node_id => (reg.heartbeat now node_id).1
  | RegistryOp.mark_stale_offline now max_age_secs =>
    (reg.mark_stale_offline now max_age_secs).1

/-- Run a sequence of operations from the empty registry. -/
def NodeRegistry.runOps (ops : List RegistryOp) : NodeRegistry :=
  ops.foldl NodeRegistry.applyOp NodeRegistry.empty

/-- Number of registry entries whose online flag is set. -/
def NodeRegistry.onlineCount (reg : NodeRegistry) : Nat :=
  (reg.nodes.filter (fun p => p.2.online)).length

-- =============================================================================
-- Observation helpers and spec-side vocabulary used by the claim statements
-- =============================================================================

/-- Decidable equality for `Except` results, used to evaluate fallible
operations at concrete inputs. -/
instance {E A : Type} [DecidableEq E] [DecidableEq A] : DecidableEq (Except E A)
  | Except.ok a, Except.ok b =>
    if h : a = b then isTrue (by rw [h]) else isFalse (fun hc => h (Except.ok.inj hc))
  | Except.ok _, Except.error _ => isFalse (fun hc => Except.noConfusion hc)
  | Except.error _, Except.ok _ => isFalse (fun hc => Except.noConfusion hc)
  | Except.error e, Except.error f =>
    if h : e = f then isTrue (by rw [h]) else isFalse (fun hc => h (Except.error.inj hc))

/-- Summed sizes of a candidate list. -/
def sumSizes (l : List EvictionCandidate) : Nat := (l.map (fun c => c.size_bytes)).sum

/-- The list `p` is an initial segment of `l`. -/
def initialSegment {α : Type} (p l : List α) : Prop := ∃ t, p ++ t = l

/-- Spec-side selection property, written from the claim's words: the result
is a prefix of the globally sorted candidate list that is the minimal one
whose summed sizes reach `needed` (or the whole list when the total falls
short). -/
def minimalCoveringSelection (needed : Nat) (sorted r : List EvictionCandidate) : Prop :=
  initialSegment r sorted ∧
  (needed ≤ sumSizes r ∨ r = sorted) ∧
  ∀ p, initialSegment p r → p ≠ r → ¬ needed ≤ sumSizes p

/-- Whether a tier's backend currently holds a key. -/
def MultiTierCache.tierContains (st : MultiTierCache) (tier : CacheTier)
    (key : CacheKey) : Bool :=
  match tier with
  | CacheTier.L1Memory => (alookup key.to_storage_key st.l1.entries).isSome
  | CacheTier.L2Local => (alookup key.to_storage_key st.l2.index).isSome
  | CacheTier.L3Persistent => (alookup (st.l3.prefixed_key key) st.l3.store).isSome

/-- Whether the LRU tracker currently holds a key (in the key's shard). -/
def ShardedLruTracker.containsKey (shardIndex : CacheKey → Nat)
    (t : ShardedLruTracker) (key : CacheKey) : Bool :=
  (alookup key.to_storage_key
    ((t.shards.getD (shardIndex key % 64) ⟨[], 0⟩).entries)).isSome

/-- Structural facts preserved by the eviction cascade: the L3 availability
flag and the LRU shard-vector length never change. -/
def cacheShape (st st1 : MultiTierCache) : Prop :=
  st1.l3.available = st.l3.available ∧ st1.lru.shards.length = st.lru.shards.length

/-- Concrete empty cache manager with small capacities, used to exercise the
write path end to end. -/
def w2State : MultiTierCache :=
  ⟨MemoryStorage.empty, LocalStorage.empty, PersistentStorage.empty,
    ShardedLruTracker.empty,
    ⟨⟨CompressionAlgorithm.lz4, 1024, 3, true⟩, fun _ d => Except.ok d⟩,
    CacheMetrics.new,
    ⟨⟨CacheTier.L1Memory, 1024, ⟨1, -1⟩, true, false⟩,
      ⟨CacheTier.L2Local, 1024, ⟨1, -1⟩, true, false⟩,
      ⟨CacheTier.L3Persistent, 1024, ⟨1, -1⟩, false, false⟩,
      ⟨CompressionAlgorithm.lz4, 1024, 3, true⟩, true⟩⟩

/-- Concrete empty cache manager whose per-tier capacities (and hence eviction
watermarks) are far above every tier's `max_object_size`, so the eviction
cascade never rejects or evicts anything for the payloads considered here. -/
def cx2State : MultiTierCache :=
  ⟨MemoryStorage.empty, LocalStorage.empty, PersistentStorage.empty,
    ShardedLruTracker.empty,
    ⟨⟨CompressionAlgorithm.lz4, 1024, 3, true⟩, fun _ d => Except.ok d⟩,
    CacheMetrics.new,
    ⟨⟨CacheTier.L1Memory, 2 ^ 40, ⟨1, -1⟩, true, false⟩,
      ⟨CacheTier.L2Local, 2 ^ 40, ⟨1, -1⟩, true, false⟩,
      ⟨CacheTier.L3Persistent, 2 ^ 40, ⟨1, -1⟩, false, false⟩,
      ⟨CompressionAlgorithm.lz4, 1024, 3, true⟩, true⟩⟩

-- =============================================================================
-- Claim C8: size-based tier selection and its boundaries
-- =============================================================================

/-- C8: size-based tier selection places sizes up to the L1 maximum in L1,
sizes up to the L2 maximum in L2, sizes up to the 10 GiB bypass threshold in
L3, and yields no tier above the threshold, where `put` fails with the
size-exceeded error; the four boundary values behave exactly as stated. -/
theorem C8_tier_selection_boundaries :
    (∀ s : Nat, s ≤ L1_MAX_SIZE_BYTES →
      CacheTier.for_size s = some CacheTier.L1Memory) ∧
    (∀ s : Nat, L1_MAX_SIZE_BYTES < s → s ≤ L2_MAX_SIZE_BYTES →
      CacheTier.for_size s = some CacheTier.L2Local) ∧
    (∀ s : Nat, L2_MAX_SIZE_BYTES < s → s ≤ CACHE_BYPASS_SIZE_BYTES →
      CacheTier.for_size s = some CacheTier.L3Persistent) ∧
    (∀ s : Nat, CACHE_BYPASS_SIZE_BYTES < s →
      CacheTier.for_size s = Option.none ∧
      ∀ (shardIndex : CacheKey → Nat) (scoreOf : EntryMetadata → ℚ)
        (st : MultiTierCache) (now : Int) (key : CacheKey) (data : List Nat),
        data.length = s →
        MultiTierCache.put shardIndex scoreOf st now key data =
          (st, Except.error (CacheError.Internal
            "Object size exceeds cache bypass threshold"))) ∧
    (CacheTier.for_size L1_MAX_SIZE_BYTES = some CacheTier.L1Memory ∧
      CacheTier.for_size (L1_MAX_SIZE_BYTES + 1) = some CacheTier.L2Local ∧
      CacheTier.for_size CACHE_BYPASS_SIZE_BYTES = some CacheTier.L3Persistent ∧
      CacheTier.for_size (CACHE_BYPASS_SIZE_BYTES + 1) = Option.none) := by
  refine ⟨?_, ?_, ?_, ?_, ?_, ?_, ?_, ?_⟩
  · intro s h
    simp only [CacheTier.for_size, L1_MAX_SIZE_BYTES, CACHE_BYPASS_SIZE_BYTES] at h ⊢
    rw [if_neg (by omega), if_pos (by omega)]
  · intro s h1 h2
    simp only [CacheTier.for_size, L1_MAX_SIZE_BYTES, L2_MAX_SIZE_BYTES,
      CACHE_BYPASS_SIZE_BYTES] at h1 h2 ⊢
    rw [if_neg (by omega), if_neg (by omega), if_pos (by omega)]
  · intro s h1 h2
    simp only [CacheTier.for_size, L1_MAX_SIZE_BYTES, L2_MAX_SIZE_BYTES,
      CACHE_BYPASS_SIZE_BYTES] at h1 h2 ⊢
    rw [if_neg (by omega), if_neg (by omega), if_neg (by omega)]
  · intro s h
    simp only [CacheTier.for_size, CACHE_BYPASS_SIZE_BYTES] at h ⊢
    constructor
    · rw [if_pos (by omega)]
    · intro shardIndex scoreOf st now key data hdata
      simp only [MultiTierCache.put, hdata, CACHE_BYPASS_SIZE_BYTES]
      rw [if_pos (by omega)]
  · decide
  · decide
  · decide
  · decide

/-- C8 witness: the boundary facts instantiated at concrete sizes through the
theorem itself. -/
theorem C8_tier_selection_boundaries_witness :
    CacheTier.for_size 1024 = some CacheTier.L1Memory ∧
    CacheTier.for_size (CACHE_BYPASS_SIZE_BYTES + 1) = Option.none :=
  ⟨C8_tier_selection_boundaries.1 1024 (by decide),
    (C8_tier_selection_boundaries.2.2.2.1 (CACHE_BYPASS_SIZE_BYTES + 1)
      (by decide)).1⟩

-- =============================================================================
-- Claim C4: the prefetch queue bound drops the wrong end
-- =============================================================================

/-- C4: evaluating `Prefetcher::submit` at a failing input. With
`max_queue_size = 2`, submitting requests of priorities 5, then 1, then 3
leaves the queue holding priorities `[3, 1]`: the third submission popped the
front of the priority-descending queue, which held the highest-priority
request (5), contradicting both the claim and the source's own comment that
the lowest-priority requests are dropped. -/
theorem C4_submit_drops_highest_priority :
    Prefetcher.submitAll ⟨8, 2, CacheTier.L2Local, true⟩
      [⟨[⟨['a'], ['x'], Option.none⟩], 5, false⟩,
        ⟨[⟨['a'], ['y'], Option.none⟩], 1, false⟩,
        ⟨[⟨['a'], ['z'], Option.none⟩], 3, false⟩] =
      [⟨[⟨['a'], ['z'], Option.none⟩], 3, false⟩,
        ⟨[⟨['a'], ['y'], Option.none⟩], 1, false⟩] ∧
    (∀ r ∈ Prefetcher.submitAll ⟨8, 2, CacheTier.L2Local, true⟩
      [⟨[⟨['a'], ['x'], Option.none⟩], 5, false⟩,
        ⟨[⟨['a'], ['y'], Option.none⟩], 1, false⟩,
        ⟨[⟨['a'], ['z'], Option.none⟩], 3, false⟩], r.priority < 5) := by
  constructor
  · decide
  · decide

-- =============================================================================
-- Claim C5: heartbeat revival misses its online_nodes delta
-- =============================================================================

/-- C5: evaluating the registry at a failing trace. Register a node at time
0, flip it offline via `mark_stale_offline` at time 10 (max age 0), then
heartbeat it at time 20: the entry is online again, but the global
`online_nodes` counter is still 0, because `heartbeat` sets `online = true`
without producing the matched `+1` delta. The reachable state violates the
claimed invariant `online_nodes = number of online entries`. -/
theorem C5_heartbeat_missing_online_delta :
    (NodeRegistry.runOps
      [RegistryOp.register 0 ['n', '1'] ['h'] ⟨[], 0, 0⟩,
        RegistryOp.mark_stale_offline 10 0,
        RegistryOp.heartbeat 20 ['n', '1']]).onlineCount = 1 ∧
    (NodeRegistry.runOps
      [RegistryOp.register 0 ['n', '1'] ['h'] ⟨[], 0, 0⟩,
        RegistryOp.mark_stale_offline 10 0,
        RegistryOp.heartbeat 20 ['n', '1']]).global_stats.online_nodes = 0 := by
  constructor
  · decide
  · decide

-- =============================================================================
-- Claim C10: entry_count double-counts replacements of empty entries
-- =============================================================================

/-- C10: evaluating the L1 memory backend and the L3 persistent backend at a
failing input. Storing an empty payload under a key and then replacing it with
a one-byte payload leaves `entry_count = 2` although the backend holds exactly
one key: both `put` implementations treat `old_size == 0` as "the key was
absent", which also holds when the present entry stores zero bytes. -/
theorem C10_entry_count_empty_replacement :
    (((MemoryStorage.empty.put
        (CacheEntry.new ⟨['a'], ['b'], Option.none⟩ (CacheData.uncompressed [])
          CacheTier.L1Memory 0)).put
        (CacheEntry.new ⟨['a'], ['b'], Option.none⟩ (CacheData.uncompressed [7])
          CacheTier.L1Memory 1)).entry_count = 2 ∧
      ((MemoryStorage.empty.put
        (CacheEntry.new ⟨['a'], ['b'], Option.none⟩ (CacheData.uncompressed [])
          CacheTier.L1Memory 0)).put
        (CacheEntry.new ⟨['a'], ['b'], Option.none⟩ (CacheData.uncompressed [7])
          CacheTier.L1Memory 1)).entries.length = 1) ∧
    ((PersistentStorage.empty.put
        (CacheEntry.new ⟨['a'], ['b'], Option.none⟩ (CacheData.uncompressed [])
          CacheTier.L3Persistent 0)).bind
      (fun st1 => (st1.put
        (CacheEntry.new ⟨['a'], ['b'], Option.none⟩ (CacheData.uncompressed [7])
          CacheTier.L3Persistent 1)).map
        (fun st2 => (st2.entry_count, st2.store.length))) =
      Except.ok (2, 1)) := by
  constructor
  · constructor
    · decide
    · decide
  · decide

-- =============================================================================
-- Claim C1: compression failure handling
-- =============================================================================

/-- C1 counterexample: a manager whose configured default algorithm fails on
the input, with `fallback_on_failure = false` and an input meeting the size
gate, still returns the original bytes with algorithm `None` from `compress` —
no error is surfaced, contradicting the claim (the function's return type has
no error channel at all). -/
theorem C1_compress_no_error_counterexample :
    let m : CompressionManager :=
      ⟨⟨CompressionAlgorithm.lz4, 4, 3, false⟩,
        fun _ _ => Except.error "compression failed"⟩
    m.compress [0, 1, 2, 3, 4] = ([0, 1, 2, 3, 4], CompressionAlgorithm.none) ∧
    m.config.fallback_on_failure = false ∧
    m.config.min_size_bytes ≤ ([0, 1, 2, 3, 4] : List Nat).length := by
  refine ⟨?_, ?_, ?_⟩
  · decide
  · decide
  · decide

/-- C1 (amended): for inputs meeting the minimum-size gate, when the
underlying compressor fails, `compress` returns the original bytes with
algorithm `None` regardless of `fallback_on_failure` (the flag only controls
logging there), while `compress_with` returns the original bytes with `None`
when `fallback_on_failure` is true and surfaces the error when it is false. -/
theorem C1_compress_failure_contract (m : CompressionManager) (data : List Nat)
    (hsize : m.config.min_size_bytes ≤ data.length) :
    (∀ e, m.compressorRun m.config.default_algorithm data = Except.error e →
      m.compress data = (data, CompressionAlgorithm.none)) ∧
    (∀ alg e, alg ≠ CompressionAlgorithm.none →
      m.compressorRun alg data = Except.error e →
      m.compress_with data alg =
        (if m.config.fallback_on_failure then
          Except.ok (data, CompressionAlgorithm.none)
        else Except.error e)) := by
  constructor
  · intro e herr
    unfold CompressionManager.compress
    rw [if_neg (by omega), herr]
    simp
  · intro alg e halg herr
    unfold CompressionManager.compress_with
    rw [if_neg halg, herr]

/-- C1 witness: the contract applied to a concrete failing manager and
input. -/
theorem C1_compress_failure_contract_witness :
    CompressionManager.compress
      ⟨⟨CompressionAlgorithm.zstd, 2, 3, true⟩, fun _ _ => Except.error "x"⟩
      [9, 9, 9] = ([9, 9, 9], CompressionAlgorithm.none) :=
  (C1_compress_failure_contract
    ⟨⟨CompressionAlgorithm.zstd, 2, 3, true⟩, fun _ _ => Except.error "x"⟩
    [9, 9, 9] (by decide)).1 "x" rfl

-- =============================================================================
-- Claim C3: storage-key round trip
-- =============================================================================

theorem splitFirst_of_not_mem (sep : Char) (s : List Char) (h : sep ∉ s) :
    splitFirst sep s = Option.none := by
  induction s with
  | nil => rfl
  | cons c rest ih =>
    have hcs : ¬ c = sep := fun hc => h (by simp [hc])
    simp only [splitFirst]
    rw [if_neg hcs, ih (fun hm => h (List.mem_cons_of_mem c hm))]

theorem splitFirst_append (sep : Char) (a b : List Char) (h : sep ∉ a) :
    splitFirst sep (a ++ sep :: b) = some (a, b) := by
  induction a with
  | nil => simp [splitFirst]
  | cons c rest ih =>
    have hcs : ¬ c = sep := fun hc => h (by simp [hc])
    have hrest : sep ∉ rest := fun hm => h (List.mem_cons_of_mem c hm)
    have e : splitFirst sep (c :: (rest ++ sep :: b)) =
        if c = sep then some ([], rest ++ sep :: b)
        else match splitFirst sep (rest ++ sep :: b) with
          | some (x, y) => some (c :: x, y)
          | Option.none => Option.none := rfl
    rw [List.cons_append, e, if_neg hcs, ih hrest]

theorem splitn3_two_parts (sep : Char) (a b : List Char) (ha : sep ∉ a)
    (hb : sep ∉ b) : splitn 3 sep (a ++ sep :: b) = [a, b] := by
  have e1 : splitn 3 sep (a ++ sep :: b) =
      match splitFirst sep (a ++ sep :: b) with
      | Option.none => [a ++ sep :: b]
      | some (x, y) => x :: splitn 2 sep y := rfl
  rw [e1, splitFirst_append sep a b ha]
  show a :: splitn 2 sep b = [a, b]
  have e2 : splitn 2 sep b =
      match splitFirst sep b with
      | Option.none => [b]
      | some (x, y) => x :: splitn 1 sep y := rfl
  rw [e2, splitFirst_of_not_mem sep b hb]

theorem splitn3_three_parts (sep : Char) (a b c : List Char) (ha : sep ∉ a)
    (hb : sep ∉ b) : splitn 3 sep (a ++ sep :: (b ++ sep :: c)) = [a, b, c] := by
  have e1 : splitn 3 sep (a ++ sep :: (b ++ sep :: c)) =
      match splitFirst sep (a ++ sep :: (b ++ sep :: c)) with
      | Option.none => [a ++ sep :: (b ++ sep :: c)]
      | some (x, y) => x :: splitn 2 sep y := rfl
  rw [e1, splitFirst_append sep a (b ++ sep :: c) ha]
  show a :: splitn 2 sep (b ++ sep :: c) = [a, b, c]
  have e2 : splitn 2 sep (b ++ sep :: c) =
      match splitFirst sep (b ++ sep :: c) with
      | Option.none => [b ++ sep :: c]
      | some (x, y) => x :: splitn 1 sep y := rfl
  rw [e2, splitFirst_append sep b c hb]
  rfl

theorem char_ofNat_digit_toNat (d : Nat) (h : d < 10) :
    (Char.ofNat (48 + d)).toNat = 48 + d := by
  interval_cases d <;> decide

theorem char_ofNat_digit_isDigit (d : Nat) (h : d < 10) :
    (Char.ofNat (48 + d)).isDigit = true := by
  interval_cases d <;> decide

theorem natDecimalAux_digits (fuel : Nat) : ∀ n, ∀ c ∈ natDecimalAux fuel n,
    c.isDigit = true := by
  induction fuel with
  | zero => intro n c hc; simp [natDecimalAux] at hc
  | succ fuel ih =>
    intro n c hc
    by_cases h0 : n = 0
    · simp [natDecimalAux, h0] at hc
    · simp only [natDecimalAux, if_neg h0] at hc
      rcases List.mem_append.1 hc with h1 | h2
      · exact ih (n / 10) c h1
      · have : c = Char.ofNat (48 + n % 10) := by simpa using h2
        rw [this]
        exact char_ofNat_digit_isDigit (n % 10) (Nat.mod_lt n (by omega))

theorem natDecimal_digits (n : Nat) : ∀ c ∈ natDecimal n, c.isDigit = true := by
  intro c hc
  unfold natDecimal at hc
  by_cases h0 : n = 0
  · rw [if_pos h0] at hc
    simp at hc
    rw [hc]; decide
  · rw [if_neg h0] at hc
    exact natDecimalAux_digits 64 n c hc

theorem natDecimal_ne_nil (n : Nat) : natDecimal n ≠ [] := by
  unfold natDecimal
  by_cases h0 : n = 0
  · rw [if_pos h0]; simp
  · rw [if_neg h0]
    show natDecimalAux 64 n ≠ []
    have e : natDecimalAux 64 n =
        if n = 0 then [] else natDecimalAux 63 (n / 10) ++ [Char.ofNat (48 + n % 10)] := rfl
    rw [e, if_neg h0]
    simp

theorem natDecimalAux_foldl (fuel : Nat) : ∀ n a, n < 10 ^ fuel →
    (natDecimalAux fuel n).foldl (fun acc c => acc * 10 + (c.toNat - 48)) a =
      a * 10 ^ (natDecimalAux fuel n).length + n := by
  induction fuel with
  | zero =>
    intro n a h
    interval_cases n
    simp [natDecimalAux]
  | succ fuel ih =>
    intro n a h
    by_cases h0 : n = 0
    · simp [natDecimalAux, h0]
    · simp only [natDecimalAux, if_neg h0]
      rw [List.foldl_append]
      have hdiv : n / 10 < 10 ^ fuel := by
        rw [Nat.div_lt_iff_lt_mul (by omega)]
        calc n < 10 ^ (fuel + 1) := h
          _ = 10 ^ fuel * 10 := by ring
      rw [ih (n / 10) a hdiv]
      simp only [List.foldl_cons, List.foldl_nil, List.length_append,
        List.length_cons, List.length_nil]
      rw [char_ofNat_digit_toNat (n % 10) (Nat.mod_lt n (by omega))]
      have hsub : 48 + n % 10 - 48 = n % 10 := by omega
      rw [hsub]
      have hsplit : (a * 10 ^ (natDecimalAux fuel (n / 10)).length + n / 10) * 10 + n % 10 =
          a * (10 ^ (natDecimalAux fuel (n / 10)).length * 10) + (10 * (n / 10) + n % 10) := by
        ring
      rw [hsplit, Nat.div_add_mod]
      ring

theorem parseU64_natDecimal (n : Nat) (h : n < U64_MODULUS) :
    parseU64 (natDecimal n) = some n := by
  obtain ⟨c, cs, hcons⟩ : ∃ c cs, natDecimal n = c :: cs := by
    cases hnd : natDecimal n with
    | nil => exact absurd hnd (natDecimal_ne_nil n)
    | cons c cs => exact ⟨c, cs, rfl⟩
  have hdig : c.isDigit = true := natDecimal_digits n c (by rw [hcons]; simp)
  have hplus : ¬ c = '+' := by
    intro hc
    rw [hc] at hdig
    exact absurd hdig (by decide)
  have hall : (natDecimal n).all Char.isDigit = true :=
    List.all_eq_true.2 (natDecimal_digits n)
  have hfold : digitsVal (natDecimal n) = n := by
    unfold digitsVal natDecimal
    by_cases h0 : n = 0
    · rw [if_pos h0, h0]; decide
    · rw [if_neg h0]
      have hlt : n < 10 ^ 64 := by
        calc n < U64_MODULUS := h
          _ < 10 ^ 64 := by decide
      rw [natDecimalAux_foldl 64 n 0 hlt]
      simp
  have hstrip : stripPlus (natDecimal n) = natDecimal n := by
    rw [hcons]
    show (if c = '+' then cs else c :: cs) = c :: cs
    rw [if_neg hplus]
  have hempty : (natDecimal n).isEmpty = false := by rw [hcons]; rfl
  unfold parseU64
  rw [hstrip]
  show (if (natDecimal n).isEmpty = true then Option.none
    else if (natDecimal n).all Char.isDigit = true then
      if digitsVal (natDecimal n) < U64_MODULUS then some (digitsVal (natDecimal n))
      else Option.none
    else Option.none) = some n
  rw [hempty]
  simp only [Bool.false_eq_true, if_false]
  rw [if_pos hall, hfold, if_pos h]

/-- C3 counterexample: the round trip fails as soon as namespace or id contain
a colon; here the unversioned key with id `"a:v5"` serializes to `"ns:a:v5"`,
which parses back as the versioned key `(ns, a, v5)`. -/
theorem C3_roundtrip_counterexample :
    CacheKey.from_storage_key
        (CacheKey.to_storage_key ⟨['n', 's'], ['a', ':', 'v', '5'], Option.none⟩) =
      some ⟨['n', 's'], ['a'], some 5⟩ ∧
    CacheKey.from_storage_key
        (CacheKey.to_storage_key ⟨['n', 's'], ['a', ':', 'v', '5'], Option.none⟩) ≠
      some ⟨['n', 's'], ['a', ':', 'v', '5'], Option.none⟩ := by
  constructor
  · decide
  · decide

/-- C3 (amended): the textual serialization round-trips for every key whose
namespace and id contain no `':'` separator (versioned and unversioned; the
version is a `u64`, hence below `2^64`). -/
theorem C3_storage_key_roundtrip (ns id : List Char) (v : Option Nat)
    (hns : ':' ∉ ns) (hid : ':' ∉ id)
    (hv : ∀ n, v = some n → n < U64_MODULUS) :
    CacheKey.from_storage_key (CacheKey.to_storage_key ⟨ns, id, v⟩) =
      some ⟨ns, id, v⟩ := by
  cases v with
  | none =>
    show CacheKey.from_storage_key (ns ++ ':' :: id) = some ⟨ns, id, Option.none⟩
    unfold CacheKey.from_storage_key
    rw [splitn3_two_parts ':' ns id hns hid]
  | some n =>
    show CacheKey.from_storage_key (ns ++ ':' :: (id ++ ':' :: ('v' :: natDecimal n))) =
      some ⟨ns, id, some n⟩
    unfold CacheKey.from_storage_key
    rw [splitn3_three_parts ':' ns id ('v' :: natDecimal n) hns hid]
    show (if ('v' : Char) = 'v' then
        (parseU64 (natDecimal n)).map (fun v => (⟨ns, id, some v⟩ : CacheKey))
      else Option.none) = some ⟨ns, id, some n⟩
    rw [if_pos rfl, parseU64_natDecimal n (hv n rfl)]
    rfl

/-- C3 witness: the round trip applied to a concrete versioned key. -/
theorem C3_storage_key_roundtrip_witness :
    CacheKey.from_storage_key (CacheKey.to_storage_key ⟨['a'], ['b'], some 42⟩) =
      some ⟨['a'], ['b'], some 42⟩ :=
  C3_storage_key_roundtrip ['a'] ['b'] (some 42) (by decide) (by decide)
    (fun n hn => by
      have h42 : n = 42 := (Option.some.inj hn).symm
      rw [h42]; decide)

-- =============================================================================
-- Claim C9: the stale sweep flips exactly the stale online entries
-- =============================================================================

theorem markStaleLoop_fst (now : Int) (max_age_secs : Nat)
    (l : List (NodeId × NodeEntry)) :
    (markStaleLoop now max_age_secs l).1 =
      l.map (fun p => if staleOnline now max_age_secs p.2
        then (p.1, { p.2 with online := false }) else p) := by
  induction l with
  | nil => rfl
  | cons p rest ih =>
    obtain ⟨id, e⟩ := p
    simp only [markStaleLoop, List.map_cons]
    by_cases hc : staleOnline now max_age_secs e
    · rw [if_pos hc, if_pos hc, ih]
    · rw [if_neg hc, if_neg hc, ih]

theorem markStaleLoop_snd (now : Int) (max_age_secs : Nat)
    (l : List (NodeId × NodeEntry)) :
    (markStaleLoop now max_age_secs l).2 =
      l.countP (fun p => decide (staleOnline now max_age_secs p.2)) := by
  induction l with
  | nil => rfl
  | cons p rest ih =>
    obtain ⟨id, e⟩ := p
    simp only [markStaleLoop, List.countP_cons]
    by_cases hc : staleOnline now max_age_secs e
    · rw [if_pos hc, ih]
      simp [hc]
    · rw [if_neg hc, ih]
      simp [hc]

theorem u64wrapSub_eq_sub (a b : Nat) (h1 : b ≤ a) (h2 : a < U64_MODULUS) :
    u64wrapSub a b = a - b := by
  unfold U64_MODULUS at h2
  unfold u64wrapSub U64_MODULUS
  norm_num at h2 ⊢
  omega

/-- C9 counterexample: after a register at time 0, a stale sweep at time 10,
and a heartbeat at time 20 — which, because `heartbeat` omits its `+1` delta,
leaves one online entry with `online_nodes = 0` — a second stale sweep at
time 40 flips that one entry and performs the wrapping `fetch_sub`, driving
the u64 counter from 0 up to `2^64 - 1` instead of decrementing it by the
flip count. -/
theorem C9_online_nodes_wrap_counterexample :
    (NodeRegistry.runOps
      [RegistryOp.register 0 ['n', '1'] ['h'] ⟨[], 0, 0⟩,
        RegistryOp.mark_stale_offline 10 0,
        RegistryOp.heartbeat 20 ['n', '1']]).global_stats.online_nodes = 0 ∧
    ((NodeRegistry.runOps
      [RegistryOp.register 0 ['n', '1'] ['h'] ⟨[], 0, 0⟩,
        RegistryOp.mark_stale_offline 10 0,
        RegistryOp.heartbeat 20 ['n', '1']]).mark_stale_offline 40 0).2 = 1 ∧
    ((NodeRegistry.runOps
      [RegistryOp.register 0 ['n', '1'] ['h'] ⟨[], 0, 0⟩,
        RegistryOp.mark_stale_offline 10 0,
        RegistryOp.heartbeat 20 ['n', '1']]).mark_stale_offline 40
      0).1.global_stats.online_nodes = 2 ^ 64 - 1 := by
  refine ⟨?_, ?_, ?_⟩ <;> decide

/-- C9 (amended): `mark_stale_offline` flips offline exactly the online
entries whose heartbeat is strictly older than `max_age_secs`, leaves every
other entry unchanged, returns the flip count, leaves every other global
counter untouched, and — when the flip count is nonzero — updates
`online_nodes` by wrapping 64-bit subtraction of that count (an exact
decrement only when the count does not exceed the counter; the counter can
underflow in reachable states because `heartbeat` omits its `+1` delta). -/
theorem C9_mark_stale_offline (reg : NodeRegistry) (now : Int) (max_age_secs : Nat) :
    ((reg.mark_stale_offline now max_age_secs).2 =
      reg.nodes.countP (fun p => decide (staleOnline now max_age_secs p.2))) ∧
    ((reg.mark_stale_offline now max_age_secs).1.nodes =
      reg.nodes.map (fun p => if staleOnline now max_age_secs p.2
        then (p.1, { p.2 with online := false }) else p)) ∧
    ((reg.mark_stale_offline now max_age_secs).1.global_stats.total_nodes =
        reg.global_stats.total_nodes ∧
      (reg.mark_stale_offline now max_age_secs).1.global_stats.total_drives =
        reg.global_stats.total_drives ∧
      (reg.mark_stale_offline now max_age_secs).1.global_stats.registrations =
        reg.global_stats.registrations ∧
      (reg.mark_stale_offline now max_age_secs).1.global_stats.deregistrations =
        reg.global_stats.deregistrations) ∧
    ((reg.mark_stale_offline now max_age_secs).1.global_stats.online_nodes =
      if (reg.mark_stale_offline now max_age_secs).2 > 0 then
        u64wrapSub reg.global_stats.online_nodes
          (reg.mark_stale_offline now max_age_secs).2
      else reg.global_stats.online_nodes) := by
  refine ⟨?_, ?_, ?_, ?_⟩
  · simp only [NodeRegistry.mark_stale_offline]
    exact markStaleLoop_snd now max_age_secs reg.nodes
  · simp only [NodeRegistry.mark_stale_offline]
    exact markStaleLoop_fst now max_age_secs reg.nodes
  · simp only [NodeRegistry.mark_stale_offline]
    split <;> simp
  · simp only [NodeRegistry.mark_stale_offline]
    split <;> simp

/-- C9 witness: the sweep applied to a concrete two-node registry where only
one node is stale: the counter drops from 2 to 1, here via the wrapping
subtraction. -/
theorem C9_mark_stale_offline_witness :
    ((NodeRegistry.runOps
      [RegistryOp.register 0 ['n', '1'] ['h'] ⟨[], 0, 0⟩,
        RegistryOp.register 9 ['n', '2'] ['h'] ⟨[], 0, 0⟩]).mark_stale_offline 10
      5).1.global_stats.online_nodes = 1 := by
  have h := C9_mark_stale_offline (NodeRegistry.runOps
    [RegistryOp.register 0 ['n', '1'] ['h'] ⟨[], 0, 0⟩,
      RegistryOp.register 9 ['n', '2'] ['h'] ⟨[], 0, 0⟩]) 10 5
  rw [h.2.2.2]
  decide

-- =============================================================================
-- Claim C6: eviction candidate selection
-- =============================================================================

theorem insertByScoreDesc_perm (x : EvictionCandidate) (l : List EvictionCandidate) :
    (insertByScoreDesc x l).Perm (x :: l) := by
  induction l with
  | nil => simp [insertByScoreDesc]
  | cons y ys ih =>
    by_cases h : x.score ≤ y.score
    · simp only [insertByScoreDesc, if_pos h]
      exact (ih.cons y).trans (List.Perm.swap x y ys)
    · simp [insertByScoreDesc, if_neg h]

theorem mem_insertByScoreDesc {a x : EvictionCandidate} {l : List EvictionCandidate} :
    a ∈ insertByScoreDesc x l ↔ a = x ∨ a ∈ l := by
  rw [(insertByScoreDesc_perm x l).mem_iff]
  exact List.mem_cons

theorem sorted_insertByScoreDesc (x : EvictionCandidate) (l : List EvictionCandidate)
    (h : List.Sorted (fun a b : EvictionCandidate => b.score ≤ a.score) l) :
    List.Sorted (fun a b : EvictionCandidate => b.score ≤ a.score)
      (insertByScoreDesc x l) := by
  induction l with
  | nil => simp [insertByScoreDesc]
  | cons y ys ih =>
    rw [List.sorted_cons] at h
    by_cases hc : x.score ≤ y.score
    · simp only [insertByScoreDesc, if_pos hc]
      rw [List.sorted_cons]
      refine ⟨?_, ih h.2⟩
      intro b hb
      rcases mem_insertByScoreDesc.1 hb with rfl | hbys
      · exact hc
      · exact h.1 b hbys
    · simp only [insertByScoreDesc, if_neg hc]
      rw [List.sorted_cons]
      refine ⟨?_, List.sorted_cons.2 h⟩
      intro b hb
      rcases List.mem_cons.1 hb with rfl | hbys
      · exact le_of_lt (not_le.1 hc)
      · exact le_trans (h.1 b hbys) (le_of_lt (not_le.1 hc))

theorem foldl_insertByScoreDesc_perm (l : List EvictionCandidate) :
    ∀ acc, (l.foldl (fun acc x => insertByScoreDesc x acc) acc).Perm (l ++ acc) := by
  induction l with
  | nil => intro acc; simp
  | cons x xs ih =>
    intro acc
    simp only [List.foldl_cons]
    refine (ih (insertByScoreDesc x acc)).trans ?_
    refine (List.Perm.append_left xs (insertByScoreDesc_perm x acc)).trans ?_
    exact List.perm_middle

theorem sortByScoreDesc_perm (l : List EvictionCandidate) :
    (sortByScoreDesc l).Perm l := by
  have h := foldl_insertByScoreDesc_perm l []
  simpa [sortByScoreDesc] using h

theorem foldl_insertByScoreDesc_sorted (l : List EvictionCandidate) :
    ∀ acc, List.Sorted (fun a b : EvictionCandidate => b.score ≤ a.score) acc →
      List.Sorted (fun a b : EvictionCandidate => b.score ≤ a.score)
        (l.foldl (fun acc x => insertByScoreDesc x acc) acc) := by
  induction l with
  | nil => intro acc h; simpa using h
  | cons x xs ih =>
    intro acc h
    simp only [List.foldl_cons]
    exact ih (insertByScoreDesc x acc) (sorted_insertByScoreDesc x acc h)

theorem sortByScoreDesc_sorted (l : List EvictionCandidate) :
    List.Sorted (fun a b : EvictionCandidate => b.score ≤ a.score)
      (sortByScoreDesc l) :=
  foldl_insertByScoreDesc_sorted l [] (by simp)

theorem sumSizes_nil : sumSizes [] = 0 := rfl

theorem sumSizes_cons (c : EvictionCandidate) (l : List EvictionCandidate) :
    sumSizes (c :: l) = c.size_bytes + sumSizes l := by
  simp [sumSizes]

theorem selectCover_initialSegment (n : Nat) (l : List EvictionCandidate) :
    initialSegment (selectCover n l) l := by
  induction l generalizing n with
  | nil => exact ⟨[], rfl⟩
  | cons c rest ih =>
    by_cases hc : n ≤ c.size_bytes
    · exact ⟨rest, by simp [selectCover, if_pos hc]⟩
    · obtain ⟨t, ht⟩ := ih (n - c.size_bytes)
      exact ⟨t, by simp [selectCover, if_neg hc, ht]⟩

theorem selectCover_covers (n : Nat) (l : List EvictionCandidate) :
    n ≤ sumSizes (selectCover n l) ∨ selectCover n l = l := by
  induction l generalizing n with
  | nil => exact Or.inr rfl
  | cons c rest ih =>
    by_cases hc : n ≤ c.size_bytes
    · left
      simp only [selectCover, if_pos hc, sumSizes_cons, sumSizes_nil]
      omega
    · rcases ih (n - c.size_bytes) with h | h
      · left
        simp only [selectCover, if_neg hc, sumSizes_cons]
        omega
      · right
        simp [selectCover, if_neg hc, h]

theorem selectCover_minimal (n : Nat) (l p : List EvictionCandidate)
    (hseg : initialSegment p l) (hne : p ≠ []) (hsum : n ≤ sumSizes p) :
    (selectCover n l).length ≤ p.length := by
  induction l generalizing n p with
  | nil =>
    obtain ⟨t, ht⟩ := hseg
    cases p with
    | nil => exact absurd rfl hne
    | cons a q => simp at ht
  | cons c rest ih =>
    obtain ⟨t, ht⟩ := hseg
    cases p with
    | nil => exact absurd rfl hne
    | cons a q =>
      have ha : a = c := by
        have := congrArg (fun l => l.headD c) ht
        simpa using this
      have hq : initialSegment q rest := by
        refine ⟨t, ?_⟩
        have := congrArg List.tail ht
        simpa using this
      by_cases hc : n ≤ c.size_bytes
      · simp only [selectCover, if_pos hc, List.length_cons, List.length_nil]
        omega
      · simp only [selectCover, if_neg hc, List.length_cons]
        cases q with
        | nil =>
          rw [ha] at hsum
          simp only [sumSizes_cons, sumSizes_nil] at hsum
          omega
        | cons b q2 =>
          have hsum2 : n - c.size_bytes ≤ sumSizes (b :: q2) := by
            rw [ha] at hsum
            simp only [sumSizes_cons] at hsum ⊢
            omega
          have := ih (n - c.size_bytes) (b :: q2) hq (by simp) hsum2
          simpa using Nat.succ_le_succ this

theorem selectCover_ne_nil (n : Nat) (l : List EvictionCandidate) (h : l ≠ []) :
    selectCover n l ≠ [] := by
  cases l with
  | nil => exact absurd rfl h
  | cons c rest =>
    by_cases hc : n ≤ c.size_bytes
    · simp [selectCover, if_pos hc]
    · simp [selectCover, if_neg hc]

/-- C6 counterexample: with `bytes_needed = 0` and one tracked candidate, the
selection loop still returns one candidate, although the minimal prefix of the
sorted candidate list whose summed size is at least 0 is the empty prefix —
the returned prefix is not the minimal covering one. -/
theorem C6_zero_needed_counterexample :
    ¬ minimalCoveringSelection 0
      (sortByScoreDesc
        (((⟨[⟨[(CacheKey.to_storage_key ⟨['a'], ['b'], Option.none⟩,
            ⟨⟨['a'], ['b'], Option.none⟩, 5, CacheTier.L1Memory, 0, 1⟩)], 5⟩], 1⟩ :
          ShardedLruTracker).shards.map
          (fun sh => sh.get_eviction_candidates CacheTier.L1Memory 100
            (fun _ => 0))).flatten))
      ((⟨[⟨[(CacheKey.to_storage_key ⟨['a'], ['b'], Option.none⟩,
          ⟨⟨['a'], ['b'], Option.none⟩, 5, CacheTier.L1Memory, 0, 1⟩)], 5⟩], 1⟩ :
        ShardedLruTracker).get_eviction_candidates (fun _ => 0)
        CacheTier.L1Memory 0) := by
  intro h
  exact h.2.2 [] ⟨_, rfl⟩ (by decide) (by decide)

/-- C6 (amended): `get_eviction_candidates` merges each shard's top-100
tier-matching candidates, sorts the union by score descending, and returns an
initial segment of that sorted list: the minimal nonempty one whose summed
sizes reach `bytes_needed` (for `bytes_needed = 0` with candidates available
a single candidate is returned rather than the empty prefix), and the whole
sorted list when the total falls short. -/
theorem C6_eviction_candidate_selection (scoreOf : EntryMetadata → ℚ)
    (t : ShardedLruTracker) (tier : CacheTier) (needed : Nat) :
    ((sortByScoreDesc ((t.shards.map
        (fun sh => sh.get_eviction_candidates tier 100 scoreOf)).flatten)).Perm
      ((t.shards.map (fun sh => sh.get_eviction_candidates tier 100 scoreOf)).flatten)) ∧
    (List.Sorted (fun a b : EvictionCandidate => b.score ≤ a.score)
      (sortByScoreDesc ((t.shards.map
        (fun sh => sh.get_eviction_candidates tier 100 scoreOf)).flatten))) ∧
    (∀ sh ∈ t.shards,
      (sh.get_eviction_candidates tier 100 scoreOf).length ≤ 100 ∧
      ∀ c ∈ sh.get_eviction_candidates tier 100 scoreOf,
        c.tier = tier ∧ c.demotion_target = tier.demotion_target) ∧
    (initialSegment (t.get_eviction_candidates scoreOf tier needed)
      (sortByScoreDesc ((t.shards.map
        (fun sh => sh.get_eviction_candidates tier 100 scoreOf)).flatten))) ∧
    (needed ≤ sumSizes (t.get_eviction_candidates scoreOf tier needed) ∨
      t.get_eviction_candidates scoreOf tier needed =
        sortByScoreDesc ((t.shards.map
          (fun sh => sh.get_eviction_candidates tier 100 scoreOf)).flatten)) ∧
    (∀ p, initialSegment p (sortByScoreDesc ((t.shards.map
        (fun sh => sh.get_eviction_candidates tier 100 scoreOf)).flatten)) →
      p ≠ [] → needed ≤ sumSizes p →
      (t.get_eviction_candidates scoreOf tier needed).length ≤ p.length) ∧
    (sortByScoreDesc ((t.shards.map
        (fun sh => sh.get_eviction_candidates tier 100 scoreOf)).flatten) ≠ [] →
      t.get_eviction_candidates scoreOf tier needed ≠ []) := by
  refine ⟨sortByScoreDesc_perm _, sortByScoreDesc_sorted _, ?_, ?_, ?_, ?_, ?_⟩
  · intro sh hsh
    constructor
    · exact List.length_take_le 100 _
    · intro c hc
      have hc1 : c ∈ sortByScoreDesc (((sh.entries.map Prod.snd).filter
          (fun m => m.tier = tier)).map (toCandidate scoreOf)) :=
        List.mem_of_mem_take hc
      have hc2 := (sortByScoreDesc_perm _).mem_iff.1 hc1
      obtain ⟨m, hm, rfl⟩ := List.mem_map.1 hc2
      have hmt : m.tier = tier := by
        have := (List.mem_filter.1 hm).2
        simpa using this
      exact ⟨hmt, by rw [toCandidate, hmt]⟩
  · exact selectCover_initialSegment needed _
  · exact selectCover_covers needed _
  · intro p hseg hne hsum
    exact selectCover_minimal needed _ p hseg hne hsum
  · intro hne
    exact selectCover_ne_nil needed _ hne

/-- C6 witness: selection on a concrete single-candidate tracker with a
positive byte target. -/
theorem C6_eviction_candidate_selection_witness :
    ((⟨[⟨[(CacheKey.to_storage_key ⟨['a'], ['b'], Option.none⟩,
        ⟨⟨['a'], ['b'], Option.none⟩, 5, CacheTier.L1Memory, 0, 1⟩)], 5⟩], 1⟩ :
      ShardedLruTracker).get_eviction_candidates (fun _ => 0)
      CacheTier.L1Memory 3) ≠ [] :=
  (C6_eviction_candidate_selection (fun _ => 0)
    ⟨[⟨[(CacheKey.to_storage_key ⟨['a'], ['b'], Option.none⟩,
      ⟨⟨['a'], ['b'], Option.none⟩, 5, CacheTier.L1Memory, 0, 1⟩)], 5⟩], 1⟩
    CacheTier.L1Memory 3).2.2.2.2.2.2 (by decide)

-- =============================================================================
-- Claim C7: eviction watermark and capacity plan
-- =============================================================================

theorem log2Fuel_spec : ∀ fuel n, 0 < n → n < 2 ^ fuel →
    2 ^ log2Fuel fuel n ≤ n ∧ n < 2 ^ (log2Fuel fuel n + 1) := by
  intro fuel
  induction fuel with
  | zero =>
    intro n h0 h
    simp at h
    omega
  | succ fuel ih =>
    intro n h0 h
    by_cases h2 : n ≥ 2
    · have hd0 : 0 < n / 2 := by omega
      have hdlt : n / 2 < 2 ^ fuel := by
        rw [Nat.div_lt_iff_lt_mul (by norm_num)]
        rw [pow_succ] at h
        omega
      obtain ⟨hl, hr⟩ := ih (n / 2) hd0 hdlt
      have he : log2Fuel (fuel + 1) n = log2Fuel fuel (n / 2) + 1 := by
        simp [log2Fuel, if_pos h2]
      rw [he]
      constructor
      · rw [pow_succ]
        omega
      · rw [pow_succ]
        omega
    · have he : log2Fuel (fuel + 1) n = 0 := by simp [log2Fuel, h2]
      rw [he]
      constructor
      · simpa using h0
      · have : n < 2 := by omega
        simpa using this

theorem natBits_le_of_lt {n k : Nat} (hk : k ≤ 4096) (h : n < 2 ^ k) :
    natBits n ≤ k := by
  unfold natBits
  by_cases h0 : n = 0
  · simp [h0]
  · rw [if_neg h0]
    have hlt : n < 2 ^ 4096 :=
      lt_of_lt_of_le h (Nat.pow_le_pow_right (by norm_num) hk)
    obtain ⟨hl, _⟩ := log2Fuel_spec 4096 n (by omega) hlt
    have hlk : 2 ^ log2Fuel 4096 n < 2 ^ k := lt_of_le_of_lt hl h
    have := (Nat.pow_lt_pow_iff_right (by norm_num : 1 < 2)).1 hlk
    omega

theorem roundSig53_eq_of_le (m : Nat) (e : Int) (h : natBits m ≤ 53) :
    roundSig53 m e = ⟨m, e⟩ := by
  simp only [roundSig53]
  rw [if_pos h]

theorem truncNat_neg_exp (M s : Nat) :
    Dyadic.truncNat ⟨M, -(s : Int)⟩ = M / 2 ^ s := by
  unfold Dyadic.truncNat
  by_cases hs : s = 0
  · subst hs
    norm_num
  · have hneg : ¬ (0 : Int) ≤ -(s : Int) := by omega
    rw [if_neg hneg]
    have : (- -(s : Int)).toNat = s := by omega
    rw [this]

theorem natFloor_mul_zpow_neg (n s : ℕ) :
    (⌊(n : ℚ) * (2 : ℚ) ^ (-(s : ℤ))⌋₊ : ℕ) = n / 2 ^ s := by
  rw [zpow_neg, zpow_natCast, ← div_eq_mul_inv]
  have h := @Nat.floor_div_nat ℚ _ _ n (2 ^ s)
  simpa using h

theorem eviction_watermark_exact (cfg : TierConfig) (a s : Nat)
    (hthr : cfg.eviction_threshold = ⟨a, -(s : Int)⟩)
    (ha : a < 2 ^ 24) (hcap : cfg.capacity_bytes < 2 ^ 29) :
    cfg.eviction_watermark = cfg.capacity_bytes * a / 2 ^ s ∧
    cfg.eviction_watermark =
      ⌊(cfg.capacity_bytes : ℚ) * cfg.eviction_threshold.toRat⌋₊ := by
  have hc53 : natBits cfg.capacity_bytes ≤ 53 :=
    le_trans (natBits_le_of_lt (by norm_num) hcap) (by norm_num)
  have hprodle : cfg.capacity_bytes * a ≤ (2 ^ 29 - 1) * (2 ^ 24 - 1) :=
    Nat.mul_le_mul (by omega) (by omega)
  have hprod : cfg.capacity_bytes * a < 2 ^ 53 := by
    calc cfg.capacity_bytes * a ≤ (2 ^ 29 - 1) * (2 ^ 24 - 1) := hprodle
      _ < 2 ^ 53 := by norm_num
  have hp53 : natBits (cfg.capacity_bytes * a) ≤ 53 :=
    natBits_le_of_lt (by norm_num) hprod
  have hwm : cfg.eviction_watermark = cfg.capacity_bytes * a / 2 ^ s := by
    unfold TierConfig.eviction_watermark f64ofNat f64mul
    rw [hthr, roundSig53_eq_of_le _ 0 hc53]
    show f64toU64 (roundSig53 (cfg.capacity_bytes * a) (0 + -(s : Int))) = _
    have h0s : (0 : Int) + -(s : Int) = -(s : Int) := by ring
    rw [h0s, roundSig53_eq_of_le _ _ hp53]
    unfold f64toU64
    rw [truncNat_neg_exp]
    refine min_eq_left ?_
    have hd := Nat.div_le_self (cfg.capacity_bytes * a) (2 ^ s)
    have h2 : (2 : ℕ) ^ 53 ≤ U64_MODULUS - 1 := by
      unfold U64_MODULUS
      norm_num
    omega
  refine ⟨hwm, ?_⟩
  rw [hwm, hthr]
  have hcast : (cfg.capacity_bytes : ℚ) * Dyadic.toRat ⟨a, -(s : Int)⟩ =
      ((cfg.capacity_bytes * a : ℕ) : ℚ) * (2 : ℚ) ^ (-(s : ℤ)) := by
    unfold Dyadic.toRat
    push_cast
    ring
  rw [hcast, natFloor_mul_zpow_neg]

/-- C7 counterexample: the watermark is computed in double precision, and for
the capacity 5003999723913211 with the f32 threshold 0.9 (exact value
7549747/2^23) the rounded product truncates to 4503599632217240, one more than
floor(capacity * threshold) = 4503599632217239. -/
theorem C7_watermark_counterexample :
    TierConfig.eviction_watermark
        ⟨CacheTier.L1Memory, 5003999723913211, ⟨7549747, -23⟩, true, false⟩ =
      4503599632217240 ∧
    (⌊((5003999723913211 : ℕ) : ℚ) *
        Dyadic.toRat ⟨7549747, -23⟩⌋₊ : ℕ) = 4503599632217239 ∧
    TierConfig.eviction_watermark
        ⟨CacheTier.L1Memory, 5003999723913211, ⟨7549747, -23⟩, true, false⟩ ≠
      (⌊((5003999723913211 : ℕ) : ℚ) * Dyadic.toRat ⟨7549747, -23⟩⌋₊ : ℕ) := by
  have h2 : (⌊((5003999723913211 : ℕ) : ℚ) *
      Dyadic.toRat ⟨7549747, -23⟩⌋₊ : ℕ) = 4503599632217239 := by
    have hcast : ((5003999723913211 : ℕ) : ℚ) * Dyadic.toRat ⟨7549747, -23⟩ =
        ((5003999723913211 * 7549747 : ℕ) : ℚ) * (2 : ℚ) ^ (-((23 : ℕ) : ℤ)) := by
      unfold Dyadic.toRat
      push_cast
      ring
    rw [hcast, natFloor_mul_zpow_neg]
    decide
  have h1 : TierConfig.eviction_watermark
      ⟨CacheTier.L1Memory, 5003999723913211, ⟨7549747, -23⟩, true, false⟩ =
      4503599632217240 := by decide
  exact ⟨h1, h2, by rw [h1, h2]; omega⟩

/-- C7 (amended): for every tier configuration whose capacity is below `2^29`
bytes and whose threshold is an `f32` value `a * 2^(-s)` with a 24-bit
significand, the eviction watermark equals `floor(capacity * threshold)` (for
larger capacities the double-precision rounding can exceed the floor by one);
and `ensure_capacity` plans no eviction exactly when
`bytes_stored + needed ≤ watermark`, otherwise requesting eviction of exactly
`(bytes_stored + needed) - watermark + watermark / 10` bytes. -/
theorem C7_watermark_and_capacity_plan (cfg : TierConfig)
    (a s current needed : Nat)
    (hthr : cfg.eviction_threshold = ⟨a, -(s : Int)⟩)
    (ha : a < 2 ^ 24) (hcap : cfg.capacity_bytes < 2 ^ 29) :
    (cfg.eviction_watermark =
      ⌊(cfg.capacity_bytes : ℚ) * cfg.eviction_threshold.toRat⌋₊) ∧
    (ensureCapacityPlan cfg.eviction_watermark current needed = Option.none ↔
      current + needed ≤ cfg.eviction_watermark) ∧
    (cfg.eviction_watermark < current + needed →
      ensureCapacityPlan cfg.eviction_watermark current needed =
        some (current + needed - cfg.eviction_watermark +
          cfg.eviction_watermark / 10)) := by
  refine ⟨(eviction_watermark_exact cfg a s hthr ha hcap).2, ?_, ?_⟩
  · unfold ensureCapacityPlan
    constructor
    · intro h
      by_contra hc
      rw [if_neg hc] at h
      exact Option.noConfusion h
    · intro h
      rw [if_pos h]
  · intro h
    unfold ensureCapacityPlan
    rw [if_neg (by omega)]

/-- C7 witness: the capacity plan applied to the source's own test
configuration (capacity 1000, f32 threshold 0.8, watermark 800) with 801
incoming bytes: eviction of 1 + 80 bytes is requested. -/
theorem C7_watermark_and_capacity_plan_witness :
    ensureCapacityPlan
      (TierConfig.eviction_watermark
        ⟨CacheTier.L1Memory, 1000, ⟨13421773, -24⟩, true, false⟩) 0 801 =
      some 81 := by
  have hw : TierConfig.eviction_watermark
      ⟨CacheTier.L1Memory, 1000, ⟨13421773, -24⟩, true, false⟩ = 800 := by decide
  have h := C7_watermark_and_capacity_plan
    ⟨CacheTier.L1Memory, 1000, ⟨13421773, -24⟩, true, false⟩ 13421773 24 0 801
    (by decide) (by norm_num) (by norm_num)
  have h3 := h.2.2 (by rw [hw]; omega)
  rw [hw] at h3
  simpa using h3

-- =============================================================================
-- Claim C2: put_with_tier performs no max_object_size validation
-- =============================================================================

theorem cacheShape_refl (st : MultiTierCache) : cacheShape st st := ⟨rfl, rfl⟩

theorem cacheShape_trans {a b c : MultiTierCache} (h1 : cacheShape a b)
    (h2 : cacheShape b c) : cacheShape a c :=
  ⟨h2.1.trans h1.1, h2.2.trans h1.2⟩

theorem track_shards_length (shardIndex : CacheKey → Nat) (t : ShardedLruTracker)
    (meta : EntryMetadata) :
    (t.track shardIndex meta).shards.length = t.shards.length := by
  simp [ShardedLruTracker.track]

theorem removeKey_shards_length (shardIndex : CacheKey → Nat) (t : ShardedLruTracker)
    (key : CacheKey) :
    ((t.removeKey shardIndex key).1).shards.length = t.shards.length := by
  unfold ShardedLruTracker.removeKey
  dsimp only
  rcases hr : (t.shards.getD (shardIndex key % 64) ⟨[], 0⟩).removeKey key with ⟨sh1, r⟩
  cases r
  · rfl
  · simp [List.length_set]

theorem persistent_put_ok (p : PersistentStorage) (entry : CacheEntry)
    (h : p.available = true) :
    ∃ q, p.put entry = Except.ok q ∧
      q.store = ainsert (p.prefixed_key entry.key) entry p.store ∧
      q.key_prefix = p.key_prefix ∧ q.available = p.available := by
  unfold PersistentStorage.put
  rw [if_neg (by rw [h]; simp)]
  dsimp only
  split
  · exact ⟨_, rfl, rfl, rfl, rfl⟩
  · exact ⟨_, rfl, rfl, rfl, rfl⟩

theorem persistent_put_available (p : PersistentStorage) (entry : CacheEntry)
    (q : PersistentStorage) (h : p.put entry = Except.ok q) :
    q.available = p.available := by
  unfold PersistentStorage.put at h
  split at h
  · exact absurd h (by simp)
  · dsimp only at h
    split at h
    · injection h with h1
      rw [← h1]
    · injection h with h1
      rw [← h1]

theorem persistent_delete_available (p : PersistentStorage) (key : CacheKey)
    (q : PersistentStorage) (r : Option CacheEntry)
    (h : p.delete key = Except.ok (q, r)) : q.available = p.available := by
  unfold PersistentStorage.delete at h
  split at h
  · exact absurd h (by simp)
  · dsimp only at h
    split at h
    · injection h with h1
      injection h1 with hq hr2
      rw [← hq]
    · injection h with h1
      injection h1 with hq hr2
      rw [← hq]

theorem deleteFromTier_shape (st : MultiTierCache) (tier : CacheTier)
    (key : CacheKey) : cacheShape st (st.deleteFromTier tier key).1 := by
  cases tier with
  | L1Memory =>
    rcases h : st.l1.delete key with ⟨l1, r⟩
    simp [MultiTierCache.deleteFromTier, h, cacheShape]
  | L2Local =>
    rcases h : st.l2.delete key with ⟨l2, r⟩
    simp [MultiTierCache.deleteFromTier, h, cacheShape]
  | L3Persistent =>
    rcases h : st.l3.delete key with e | ⟨l3q, r⟩
    · simp [MultiTierCache.deleteFromTier, h, cacheShape]
    · simp only [MultiTierCache.deleteFromTier, h]
      exact ⟨persistent_delete_available st.l3 key l3q r h, rfl⟩

theorem putToTier_shape (st : MultiTierCache) (tier : CacheTier)
    (entry : CacheEntry) (st2 : MultiTierCache)
    (h : st.putToTier tier entry = Except.ok st2) : cacheShape st st2 := by
  cases tier with
  | L1Memory =>
    injection h with h1
    rw [← h1]
    exact ⟨rfl, rfl⟩
  | L2Local =>
    injection h with h1
    rw [← h1]
    exact ⟨rfl, rfl⟩
  | L3Persistent =>
    unfold MultiTierCache.putToTier at h
    rcases hq : st.l3.put entry with e | l3q
    · rw [hq] at h
      exact absurd h (by simp)
    · rw [hq] at h
      injection h with h1
      rw [← h1]
      exact ⟨persistent_put_available st.l3 entry l3q hq, rfl⟩

theorem evictLoop_shape_of_demote (shardIndex : CacheKey → Nat)
    (scoreOf : EntryMetadata → ℚ) (fuel : Nat)
    (hdem : ∀ st e, cacheShape st
      (MultiTierCache.demote shardIndex scoreOf fuel st e).1) :
    ∀ cands st tier target freed, cacheShape st
      (MultiTierCache.evictLoop shardIndex scoreOf fuel st tier target cands freed).1 := by
  intro cands
  induction cands with
  | nil =>
    intro st tier target freed
    simp only [MultiTierCache.evictLoop]
    exact cacheShape_refl st
  | cons c rest ihc =>
    intro st tier target freed
    simp only [MultiTierCache.evictLoop]
    split
    · exact cacheShape_refl st
    · rcases hdel : st.deleteFromTier tier c.key with ⟨st1, entOpt⟩
      have h1 : cacheShape st st1 := by
        have h := deleteFromTier_shape st tier c.key
        rw [hdel] at h
        exact h
      cases entOpt with
      | none => exact cacheShape_trans h1 (ihc st1 tier target freed)
      | some entry =>
        by_cases hd : (if (st1.tier_config tier).enable_demotion then
            MultiTierCache.demote shardIndex scoreOf fuel st1 entry
          else (st1, false)).2 = true
        · simp only [hd, if_true]
          refine cacheShape_trans ?_ (ihc _ tier target _)
          refine cacheShape_trans h1 ?_
          refine cacheShape_trans ?_ (⟨rfl, rfl⟩ : cacheShape _ _)
          split
          · exact hdem st1 entry
          · exact cacheShape_refl st1
        · simp only [hd, if_false, Bool.false_eq_true]
          refine cacheShape_trans ?_ (ihc _ tier target _)
          refine cacheShape_trans h1 ?_
          have h2 : cacheShape st1 (if (st1.tier_config tier).enable_demotion then
              MultiTierCache.demote shardIndex scoreOf fuel st1 entry
            else (st1, false)).1 := by
            split
            · exact hdem st1 entry
            · exact cacheShape_refl st1
          refine cacheShape_trans h2 ?_
          refine ⟨rfl, ?_⟩
          exact removeKey_shards_length shardIndex _ c.key

theorem cascade_shape (shardIndex : CacheKey → Nat) (scoreOf : EntryMetadata → ℚ) :
    ∀ fuel : Nat,
      (∀ st tier needed, cacheShape st
        (MultiTierCache.ensure_capacity shardIndex scoreOf fuel st tier needed)) ∧
      (∀ st tier n, cacheShape st
        (MultiTierCache.evict shardIndex scoreOf fuel st tier n).1) ∧
      (∀ st e, cacheShape st
        (MultiTierCache.demote shardIndex scoreOf fuel st e).1) ∧
      (∀ cands st tier target freed, cacheShape st
        (MultiTierCache.evictLoop shardIndex scoreOf fuel st tier target cands
          freed).1) := by
  intro fuel
  induction fuel with
  | zero =>
    have hens0 : ∀ st tier needed, MultiTierCache.ensure_capacity shardIndex
        scoreOf 0 st tier needed = st := fun st tier needed => by
      simp only [MultiTierCache.ensure_capacity]
    have hev0 : ∀ st tier n, MultiTierCache.evict shardIndex scoreOf 0 st tier n =
        (st, 0) := fun st tier n => by
      simp only [MultiTierCache.evict]
    have hdem0 : ∀ st e, MultiTierCache.demote shardIndex scoreOf 0 st e =
        (st, false) := fun st e => by
      simp only [MultiTierCache.demote]
    refine ⟨?_, ?_, ?_, ?_⟩
    · intro st tier needed; rw [hens0]; exact cacheShape_refl st
    · intro st tier n; rw [hev0]; exact cacheShape_refl st
    · intro st e; rw [hdem0]; exact cacheShape_refl st
    · exact evictLoop_shape_of_demote shardIndex scoreOf 0
        (fun st e => by rw [hdem0]; exact cacheShape_refl st)
  | succ f ih =>
    have hdem : ∀ st e, cacheShape st
        (MultiTierCache.demote shardIndex scoreOf (f + 1) st e).1 := by
      intro st e
      simp only [MultiTierCache.demote]
      cases htgt : e.tier.demotion_target with
      | none => exact cacheShape_refl st
      | some target =>
        dsimp only
        have h1 : cacheShape st
            (MultiTierCache.ensure_capacity shardIndex scoreOf f st target
              e.stored_size) := ih.1 st target e.stored_size
        rcases hput : (MultiTierCache.ensure_capacity shardIndex scoreOf f st target
            e.stored_size).putToTier target { e with tier := target } with err | st2
        · exact h1
        · refine cacheShape_trans h1 ?_
          refine cacheShape_trans (putToTier_shape _ _ _ _ hput) ?_
          refine ⟨rfl, ?_⟩
          exact track_shards_length shardIndex _ _
    refine ⟨?_, ?_, hdem, ?_⟩
    · intro st tier needed
      simp only [MultiTierCache.ensure_capacity]
      cases hplan : ensureCapacityPlan (st.tier_config tier).eviction_watermark
          ((st.metrics.tierGet tier).bytes_stored) needed with
      | none => exact cacheShape_refl st
      | some n => exact ih.2.1 st tier n
    · intro st tier n
      simp only [MultiTierCache.evict]
      exact ih.2.2.2 _ st tier n 0
    · exact evictLoop_shape_of_demote shardIndex scoreOf (f + 1) hdem

theorem alookup_ainsert_self {K V : Type} [DecidableEq K] (k : K) (v : V)
    (l : List (K × V)) : alookup k (ainsert k v l) = some v := by
  induction l with
  | nil => simp [ainsert, alookup]
  | cons p rest ih =>
    obtain ⟨k1, v1⟩ := p
    by_cases h : k1 = k
    · simp [ainsert, alookup, h]
    · simp only [ainsert, alookup, if_neg h]
      exact ih

theorem alookup_append_self_isSome {K V : Type} [DecidableEq K] (k : K) (v : V)
    (l : List (K × V)) : (alookup k (l ++ [(k, v)])).isSome = true := by
  induction l with
  | nil => simp [alookup]
  | cons p rest ih =>
    obtain ⟨k1, v1⟩ := p
    by_cases h : k1 = k
    · simp [alookup, h]
    · simp only [List.cons_append, alookup, if_neg h]
      exact ih

theorem getD_set_self {α : Type} (l : List α) (i : Nat) (a d : α)
    (h : i < l.length) : (l.set i a).getD i d = a := by
  induction l generalizing i with
  | nil => simp at h
  | cons x xs ih =>
    cases i with
    | zero => rfl
    | succ j =>
      simp only [List.set]
      show (xs.set j a).getD j d = a
      exact ih j (by simpa using h)

theorem track_entries_append (sh : LruShardState) (meta : EntryMetadata) :
    ∃ pre, (sh.track meta).entries = pre ++ [(meta.key.to_storage_key, meta)] := by
  unfold LruShardState.track
  dsimp only
  split
  · exact ⟨_, rfl⟩
  · exact ⟨_, rfl⟩

theorem containsKey_track_self (shardIndex : CacheKey → Nat)
    (t : ShardedLruTracker) (meta : EntryMetadata)
    (hlen : t.shards.length = 64) :
    ShardedLruTracker.containsKey shardIndex (t.track shardIndex meta)
      meta.key = true := by
  unfold ShardedLruTracker.containsKey ShardedLruTracker.track
  dsimp only
  rw [getD_set_self _ _ _ _ (by rw [hlen]; exact Nat.mod_lt _ (by norm_num))]
  obtain ⟨pre, hpre⟩ :=
    track_entries_append (t.shards.getD (shardIndex meta.key % 64) ⟨[], 0⟩) meta
  rw [hpre]
  exact alookup_append_self_isSome _ _ _

theorem memoryPut_entries (st : MemoryStorage) (entry : CacheEntry) :
    (st.put entry).entries = ainsert entry.key.to_storage_key entry st.entries := by
  unfold MemoryStorage.put
  dsimp only
  split
  · rfl
  · rfl

theorem localPut_index (st : LocalStorage) (entry : CacheEntry) :
    (st.put entry).index = ainsert entry.key.to_storage_key entry st.index := rfl

theorem storeAndTrack_spec (shardIndex : CacheKey → Nat) (st1 : MultiTierCache)
    (tier : CacheTier) (entry : CacheEntry)
    (havail : tier = CacheTier.L3Persistent → st1.l3.available = true)
    (hlen : st1.lru.shards.length = 64) :
    (MultiTierCache.storeAndTrack shardIndex st1 tier entry).2 = Except.ok tier ∧
    (MultiTierCache.storeAndTrack shardIndex st1 tier entry).1.tierContains tier
      entry.key = true ∧
    ShardedLruTracker.containsKey shardIndex
      (MultiTierCache.storeAndTrack shardIndex st1 tier entry).1.lru
      entry.key = true := by
  cases tier with
  | L1Memory =>
    have hput : st1.putToTier CacheTier.L1Memory entry =
        Except.ok { st1 with l1 := st1.l1.put entry } := rfl
    simp only [MultiTierCache.storeAndTrack, hput]
    refine ⟨trivial, ?_, ?_⟩
    · simp only [MultiTierCache.tierContains]
      rw [memoryPut_entries, alookup_ainsert_self]
      rfl
    · show ShardedLruTracker.containsKey shardIndex
        (st1.lru.track shardIndex (EntryMetadata.from_entry entry)) entry.key = true
      exact containsKey_track_self shardIndex st1.lru (EntryMetadata.from_entry entry) hlen
  | L2Local =>
    have hput : st1.putToTier CacheTier.L2Local entry =
        Except.ok { st1 with l2 := st1.l2.put entry } := rfl
    simp only [MultiTierCache.storeAndTrack, hput]
    refine ⟨trivial, ?_, ?_⟩
    · simp only [MultiTierCache.tierContains]
      rw [localPut_index, alookup_ainsert_self]
      rfl
    · show ShardedLruTracker.containsKey shardIndex
        (st1.lru.track shardIndex (EntryMetadata.from_entry entry)) entry.key = true
      exact containsKey_track_self shardIndex st1.lru (EntryMetadata.from_entry entry) hlen
  | L3Persistent =>
    obtain ⟨q, hq, hstore, hqp, hqa⟩ := persistent_put_ok st1.l3 entry (havail rfl)
    have hput : st1.putToTier CacheTier.L3Persistent entry =
        Except.ok { st1 with l3 := q } := by
      unfold MultiTierCache.putToTier
      rw [hq]
    simp only [MultiTierCache.storeAndTrack, hput]
    refine ⟨trivial, ?_, ?_⟩
    · simp only [MultiTierCache.tierContains]
      show (alookup (q.prefixed_key entry.key) q.store).isSome = true
      unfold PersistentStorage.prefixed_key
      unfold PersistentStorage.prefixed_key at hstore
      rw [hqp, hstore, alookup_ainsert_self]
      rfl
    · show ShardedLruTracker.containsKey shardIndex
        (st1.lru.track shardIndex (EntryMetadata.from_entry entry)) entry.key = true
      exact containsKey_track_self shardIndex st1.lru (EntryMetadata.from_entry entry) hlen

/-- C2 (amended): `put_with_tier` performs no validation against the caller-
specified tier's `max_object_size`. For every state whose LRU tracker has its
64 shards and whose L3 backend is available when L3 is targeted, and for every
key, payload and tier — including payloads whose stored length exceeds the
tier's maximum — the call returns `Ok(tier)`, stores the entry in that tier's
backend, and tracks the key in the LRU tracker. -/
theorem C2_put_with_tier_no_size_validation (shardIndex : CacheKey → Nat)
    (scoreOf : EntryMetadata → ℚ) (st : MultiTierCache) (now : Int)
    (key : CacheKey) (data : List Nat) (tier : CacheTier)
    (hshards : st.lru.shards.length = 64)
    (havail : tier = CacheTier.L3Persistent → st.l3.available = true) :
    (MultiTierCache.put_with_tier shardIndex scoreOf st now key data tier).2 =
      Except.ok tier ∧
    (MultiTierCache.put_with_tier shardIndex scoreOf st now key data
      tier).1.tierContains tier key = true ∧
    ShardedLruTracker.containsKey shardIndex
      (MultiTierCache.put_with_tier shardIndex scoreOf st now key data tier).1.lru
      key = true := by
  unfold MultiTierCache.put_with_tier
  refine storeAndTrack_spec shardIndex _ tier _ ?_ ?_
  · intro hT
    rw [((cascade_shape shardIndex scoreOf cascadeFuel).1 st tier _).1]
    exact havail hT
  · rw [((cascade_shape shardIndex scoreOf cascadeFuel).1 st tier _).2]
    exact hshards

/-- C2 witness: a small unversioned put through the theorem at a concrete
empty cache. -/
theorem C2_put_with_tier_no_size_validation_witness :
    (MultiTierCache.put_with_tier (fun _ => 0) (fun _ => 0) w2State
      0 ⟨['k'], ['1'], Option.none⟩ [1, 2] CacheTier.L1Memory).2 =
      Except.ok CacheTier.L1Memory :=
  (C2_put_with_tier_no_size_validation (fun _ => 0) (fun _ => 0) w2State 0
    ⟨['k'], ['1'], Option.none⟩ [1, 2] CacheTier.L1Memory (by decide)
    (fun h => CacheTier.noConfusion h)).1

/-- C2 counterexample: on an empty cache whose L1 watermark is huge, storing a
payload of `L1_MAX_SIZE_BYTES + 1` bytes with caller-specified tier L1 — one
byte above L1's `max_object_size` — succeeds with `Ok(L1Memory)` and the key
is stored in the L1 backend, refuting the claimed refusal. -/
theorem C2_oversized_put_accepted_counterexample :
    (MultiTierCache.put_with_tier (fun _ => 0) (fun _ => 0) cx2State
      0 ⟨['k'], ['1'], Option.none⟩ (List.replicate (L1_MAX_SIZE_BYTES + 1) 0)
      CacheTier.L1Memory).2 = Except.ok CacheTier.L1Memory ∧
    (MultiTierCache.put_with_tier (fun _ => 0) (fun _ => 0) cx2State
      0 ⟨['k'], ['1'], Option.none⟩ (List.replicate (L1_MAX_SIZE_BYTES + 1) 0)
      CacheTier.L1Memory).1.tierContains CacheTier.L1Memory
      ⟨['k'], ['1'], Option.none⟩ = true ∧
    CacheTier.L1Memory.max_object_size <
      (List.replicate (L1_MAX_SIZE_BYTES + 1) (0 : Nat)).length := by
  have h : (MultiTierCache.put_with_tier (fun _ => 0) (fun _ => 0) cx2State
      0 ⟨['k'], ['1'], Option.none⟩ (List.replicate (L1_MAX_SIZE_BYTES + 1) 0)
      CacheTier.L1Memory).2 = Except.ok CacheTier.L1Memory ∧
      (MultiTierCache.put_with_tier (fun _ => 0) (fun _ => 0) cx2State
        0 ⟨['k'], ['1'], Option.none⟩ (List.replicate (L1_MAX_SIZE_BYTES + 1) 0)
        CacheTier.L1Memory).1.tierContains CacheTier.L1Memory
        ⟨['k'], ['1'], Option.none⟩ = true ∧
      ShardedLruTracker.containsKey (fun _ => 0)
        (MultiTierCache.put_with_tier (fun _ => 0) (fun _ => 0) cx2State
          0 ⟨['k'], ['1'], Option.none⟩ (List.replicate (L1_MAX_SIZE_BYTES + 1) 0)
          CacheTier.L1Memory).1.lru ⟨['k'], ['1'], Option.none⟩ = true := by
    unfold MultiTierCache.put_with_tier
    refine storeAndTrack_spec (fun _ => 0) _ CacheTier.L1Memory _ ?_ ?_
    · exact fun hT => CacheTier.noConfusion hT
    · rw [((cascade_shape (fun _ => 0) (fun _ => 0) cascadeFuel).1 cx2State
        CacheTier.L1Memory _).2]
      decide
  refine ⟨h.1, h.2.1, ?_⟩
  rw [List.length_replicate]
  show L1_MAX_SIZE_BYTES < L1_MAX_SIZE_BYTES + 1
  omega

end SmartStorage
